import Mathlib

/-!
Verification of the segmented export pipeline of lexi-cut
(`src-tauri/src/commands/export.rs`).

Modelling conventions:
* Rust `f64` values are modelled as rationals (`ℚ`); the arithmetic performed by
  the pipeline (sums, differences, divisions, `min`) is carried out exactly.
* Rust strings are modelled as Lean `String` / `List Char`; byte positions agree
  with character positions on the ASCII markers involved (`"time="`, `"fps="`).
* The external encoder is an opaque process: each invocation is described by an
  `ExtProc` value giving its exit status, its captured stderr text and the
  stderr lines streamed while it runs.  An export run is a pure function of the
  segment list, the options and the environment `env : Nat → ExtProc` assigning
  to the j-th spawned process its behaviour.
-/

namespace LexiCut

/-- One segment of the export timeline (struct `ExportSegment`,
export.rs lines 8-23).  `f64` times are modelled as rationals. -/
structure ExportSegment where
  source_path : String
  start_time : ℚ
  end_time : ℚ
  audio_source_path : Option String := none
  audio_start_time : Option ℚ := none
  audio_end_time : Option ℚ := none
deriving DecidableEq

/-- Export options (struct `ExportOptions`, export.rs lines 25-33). -/
structure ExportOptions where
  preset : String
  fade_duration : ℚ
deriving DecidableEq

/-- The value produced by `options.unwrap_or_default()` (export.rs line 107):
the derived Rust `Default` gives `preset = ""` and `fade_duration = 0.0`
(the serde default of 0.167 applies only during deserialization). -/
def ExportOptions.defaultValue : ExportOptions := ⟨"", 0⟩

/-- Mode selection (export.rs line 108):
`let use_fades = opts.preset != "fast" && !opts.preset.is_empty()`. -/
def use_fades (opts : ExportOptions) : Bool :=
  opts.preset != "fast" && !(opts.preset.isEmpty)

/-- First index at which `pat` occurs in `hay`; models Rust `str::find` for a
string pattern (and `str::contains` via `Option.isSome`). -/
def findSub (pat : List Char) : List Char → Option Nat
  | [] => if pat.isPrefixOf ([] : List Char) then some 0 else none
  | c :: t =>
    if pat.isPrefixOf (c :: t) then some 0
    else (findSub pat t).map (· + 1)

/-- Models Rust `str::contains` for a string pattern. -/
def containsSub (hay pat : List Char) : Bool := (findSub pat hay).isSome

/-- Models Rust `str::contains` on whole strings. -/
def strContains (s pat : String) : Bool := containsSub s.toList pat.toList

/-- Models Rust `str::split(sep)` collected into a `Vec`. -/
def splitOnChar (sep : Char) : List Char → List (List Char)
  | [] => [[]]
  | c :: t =>
    if c == sep then [] :: splitOnChar sep t
    else
      match splitOnChar sep t with
      | [] => [[c]]
      | h :: r => (c :: h) :: r

/-- Models Rust `str::trim`. -/
def trimChars (s : List Char) : List Char :=
  ((s.dropWhile Char.isWhitespace).reverse.dropWhile Char.isWhitespace).reverse

/-- Value of a list of decimal digit characters. -/
def digitsVal (l : List Char) : Nat :=
  l.foldl (fun a c => a * 10 + (c.toNat - '0'.toNat)) 0

/-- Every character is a decimal digit. -/
def isDigits (l : List Char) : Bool := l.all Char.isDigit

/-- Mantissa part of a Rust float literal, `Digit+ | Digit+ '.' Digit* | '.' Digit+`,
as the pair (digit value of the mantissa, number of fraction digits): the
denoted value is `value / 10 ^ fractionLength`. -/
def mantissaRep (s : List Char) : Option (Nat × Nat) :=
  match s.findIdx? (· == '.') with
  | none => if !s.isEmpty && isDigits s then some (digitsVal s, 0) else none
  | some i =>
    let intPart := s.take i
    let fracPart := s.drop (i + 1)
    if isDigits intPart && isDigits fracPart && (!intPart.isEmpty || !fracPart.isEmpty) then
      some (digitsVal intPart * 10 ^ fracPart.length + digitsVal fracPart, fracPart.length)
    else none

/-- Exponent part of a Rust float literal: an optionally signed digit string. -/
def parseExpPart (s : List Char) : Option Int :=
  match s with
  | [] => none
  | c :: r =>
    if c == '+' then if !r.isEmpty && isDigits r then some (digitsVal r : Int) else none
    else if c == '-' then if !r.isEmpty && isDigits r then some (-(digitsVal r : Int)) else none
    else if !(c :: r).isEmpty && isDigits (c :: r) then some (digitsVal (c :: r) : Int) else none

/-- Unsigned part of a Rust float literal, with optional scientific exponent,
as the pair (integer numerator, power-of-ten scale): the denoted value is
`numerator * 10 ^ scale`. -/
def unsignedRep (s : List Char) : Option (Int × Int) :=
  match s.findIdx? (fun c => c == 'e' || c == 'E') with
  | none => (mantissaRep s).map (fun m => ((m.1 : Int), -(m.2 : Int)))
  | some i =>
    match mantissaRep (s.take i), parseExpPart (s.drop (i + 1)) with
    | some m, some e => some ((m.1 : Int), e - (m.2 : Int))
    | _, _ => none

/-- Optionally signed float literal as (integer numerator, power-of-ten scale). -/
def floatRep (s : List Char) : Option (Int × Int) :=
  match s with
  | [] => unsignedRep []
  | c :: r =>
    if c == '+' then unsignedRep r
    else if c == '-' then (unsignedRep r).map (fun p => (-p.1, p.2))
    else unsignedRep (c :: r)

/-- The rational value denoted by a (numerator, power-of-ten scale) pair. -/
def ratOfRep (p : Int × Int) : ℚ := (p.1 : ℚ) * (10 : ℚ) ^ p.2

/-- Models Rust `str::parse::<f64>()` on finite decimal and scientific literals,
taking the written value exactly as a rational (binary rounding of `f64` is not
modelled); the `inf`/`NaN` forms, which have no rational value, yield `none`. -/
def rustParseFloat (s : List Char) : Option ℚ := (floatRep s).map ratOfRep

/-- The search pattern `"time="` of export.rs lines 57 and 65. -/
def timeMarker : List Char := "time=".toList

/-- The search pattern `"fps="` of export.rs line 81. -/
def fpsMarker : List Char := "fps=".toList

/-- The `time_part` slice of export.rs lines 65-68: the text between the first
`"time="` marker and the next space character, `none` when either is missing. -/
def timeField (cs : List Char) : Option (List Char) :=
  match findSub timeMarker cs with
  | none => none
  | some time_start =>
    let time_str := cs.drop (time_start + 5)
    match time_str.findIdx? (· == ' ') with
    | none => none
    | some e => some (time_str.take e)

/-- Conversion of a `time_part` slice (export.rs lines 70-76): split on `':'`,
require exactly three parts, parse each with `unwrap_or(0.0)`, and combine as
`hours * 3600 + mins * 60 + secs`. -/
def timeValueOf (time_part : List Char) : Option ℚ :=
  match splitOnChar ':' time_part with
  | [p0, p1, p2] =>
    some ((rustParseFloat p0).getD 0 * 3600 + (rustParseFloat p1).getD 0 * 60 +
      (rustParseFloat p2).getD 0)
  | _ => none

/-- The trimmed fps slice of export.rs lines 81-85: the text between the first
`"fps="` marker and the next space character, `none` when either is missing. -/
def fpsField (cs : List Char) : Option (List Char) :=
  match findSub fpsMarker cs with
  | none => none
  | some fps_start =>
    let fps_str := cs.drop (fps_start + 4)
    match fps_str.findIdx? (· == ' ') with
    | none => none
    | some e => some (trimChars (fps_str.take e))

/-- Shallow embedding of `parse_ffmpeg_progress` (export.rs lines 54-89).
Returns `some (elapsedSeconds, fps?)` when the line carries a time marker whose
value (terminated by a space) splits into exactly three `:`-separated fields;
each field is parsed with `unwrap_or(0.0)`.  The fps marker, when present and
followed by a space, is parsed with `.ok()` (absent rather than 0 on failure). -/
def parse_ffmpeg_progress (line : String) : Option (ℚ × Option ℚ) :=
  if !(containsSub line.toList timeMarker) then none
  else
    ((timeField line.toList).bind timeValueOf).map
      (fun t => (t, (fpsField line.toList).bind rustParseFloat))

/-- Duration of one segment, `segment.end_time - segment.start_time`
(export.rs lines 124, 137, 233, 314). -/
def segDuration (s : ExportSegment) : ℚ := s.end_time - s.start_time

/-- `total_duration` of the fast path (export.rs line 124). -/
def totalDurationFast (segments : List ExportSegment) : ℚ :=
  (segments.map segDuration).sum

/-- `total_duration` of the transition path (export.rs lines 233-235):
the sum of segment durations minus `fade_duration * (len().saturating_sub(1))`. -/
def totalDurationFades (segments : List ExportSegment) (fadeDuration : ℚ) : ℚ :=
  (segments.map segDuration).sum - fadeDuration * ((segments.length - 1 : ℕ) : ℚ)

/-- CRF constant of the per-segment intermediate encode in transition mode
(export.rs line 346, `"-crf", "18"`, commented `High quality intermediate`).
Lower CRF means higher quality. -/
def intermediateCrf : Nat := 18

/-- Frame rate forced on every intermediate encode
(export.rs line 349, `"-r", "30"`, commented `Consistent frame rate`). -/
def intermediateFrameRate : Nat := 30

/-- CRF constant of the final encode (export.rs lines 276 and 432):
`if opts.preset == "high" { "18" } else { "23" }`. -/
def finalCrf (preset : String) : Nat := if preset == "high" then 18 else 23

/-- Running offsets handed to the chained `xfade` operators
(export.rs lines 381 and 405-420): the first offset is
`segment_durations[0] - fade_duration`, and each further iteration performs
`offset += segment_durations[i - 1] - fade_duration`. -/
def xfadeOffsetsAux (fadeDuration : ℚ) : ℚ → List ℚ → List ℚ
  | _, [] => []
  | prev, d :: rest =>
    (prev + d - fadeDuration) :: xfadeOffsetsAux fadeDuration (prev + d - fadeDuration) rest

/-- The list of cross-fade offsets used by the filter graph for `n ≥ 2` segments
(one offset per transition, `n - 1` in total); empty for fewer segments. -/
def xfadeOffsets (durations : List ℚ) (fadeDuration : ℚ) : List ℚ :=
  match durations with
  | d0 :: _ :: _ =>
    (d0 - fadeDuration) :: xfadeOffsetsAux fadeDuration (d0 - fadeDuration)
      (durations.tail.dropLast)
  | _ => []

/-- One emitted progress event (struct `ExportProgressEvent`, export.rs lines 39-52). -/
structure ProgressEvent where
  phase : String
  currentSegment : Nat
  totalSegments : Nat
  currentTime : Option ℚ
  totalTime : Option ℚ
  fps : Option ℚ
  percent : Option ℚ
deriving DecidableEq

/-- Abbreviation for building a `ProgressEvent` in the order of `emit_progress`
(export.rs lines 471-493). -/
def mkEvent (phase : String) (cur tot : Nat) (ct tt fps pc : Option ℚ) : ProgressEvent :=
  ⟨phase, cur, tot, ct, tt, fps, pc⟩

/-- Record of one external encoder invocation: the destination file handed to it
(`inScratch` marks destinations inside the per-job temp directory; scratch
destinations are recorded by file name only) and, for the transition-mode
assembly invocation, the cross-fade offsets embedded in its filter graph. -/
structure Invocation where
  dest : String
  inScratch : Bool
  success : Bool
  offsets : List ℚ := []
deriving DecidableEq

/-- Behaviour of one external process, as seen by the pipeline: its exit status,
its captured stderr text (read via `output()`), and the stderr lines streamed
while it runs (read via `BufReader::lines` on a piped stderr). -/
structure ExtProc where
  success : Bool
  stderr : String
  lines : List String

instance {ε α : Type} [DecidableEq ε] [DecidableEq α] : DecidableEq (Except ε α) := fun a b => by
  cases a <;> cases b <;>
    simp only [Except.error.injEq, Except.ok.injEq, reduceCtorEq] <;> infer_instance

/-- Observable outcome of one export job: the emitted progress events, the
external invocations performed (in order), the returned value, and whether the
scratch directory still exists after the call returns.  `tempfile::TempDir` is
dropped on every return path of the source, so the last field is `false` on
every path that the model produces. -/
structure ExportResult where
  events : List ProgressEvent
  invocations : List Invocation
  result : Except String String
  scratchPresent : Bool
deriving DecidableEq

/-- Rust `format!` with `{:04}` padding, used for intermediate segment
file names (export.rs lines 135 and 312). -/
def pad4 (n : Nat) : String :=
  let s := toString n
  if s.length < 4 then String.mk (List.replicate (4 - s.length) '0') ++ s else s

/-- The `preparing` event (export.rs lines 126 and 237). -/
def prepEvent (n : Nat) (total : ℚ) : ProgressEvent :=
  mkEvent "preparing" 0 n none (some total) none (some 0)

/-- An `error` event: every error emission passes `None` for current time,
fps and percent (export.rs lines 184, 214, 293, 360, 462). -/
def errorEvent (cur n : Nat) (total : ℚ) : ProgressEvent :=
  mkEvent "error" cur n none (some total) none none

/-- The final `complete` event at 100% (export.rs lines 218, 297, 466). -/
def completeEvent (n : Nat) (total : ℚ) : ProgressEvent :=
  mkEvent "complete" n n (some total) (some total) none (some 100)

/-- A `finalizing` checkpoint event with a fixed percent
(export.rs lines 192 and 369). -/
def finalizingEvent (n : Nat) (total pc : ℚ) : ProgressEvent :=
  mkEvent "finalizing" n n (some total) (some total) none (some pc)

/-- Intermediate outcome of the per-segment loop: the events it emitted, the
invocations it performed, and either the final accumulated duration or the
error it stopped with. -/
structure LoopOut where
  events : List ProgressEvent
  invs : List Invocation
  res : Except String ℚ
deriving DecidableEq

/-- The per-segment loop shared by both modes (export.rs lines 134-190 and
311-366): for the `i`-th remaining segment it emits one `rendering` event whose
percent is `accumulated / total * scale` (`scale` is 100 on the fast path,
50 on the transition path), invokes the encoder, and on failure emits one
`error` event and stops with `failMsg ++ index ++ ": " ++ stderr`; on success it
adds the segment's duration to the accumulator and continues. -/
def segLoop (env : Nat → ExtProc) (total : ℚ) (n : Nat) (scale : ℚ) (failMsg : String) :
    Nat → ℚ → List ExportSegment → LoopOut
  | _, acc, [] => ⟨[], [], Except.ok acc⟩
  | i, acc, s :: rest =>
    let ev := mkEvent "rendering" (i + 1) n (some acc) (some total) none
      (some (acc / total * scale))
    let inv : Invocation := ⟨"segment_" ++ pad4 i ++ ".mp4", true, (env i).success, []⟩
    if (env i).success then
      let r := segLoop env total n scale failMsg (i + 1) (acc + segDuration s) rest
      ⟨ev :: r.events, inv :: r.invs, r.res⟩
    else
      ⟨[ev, mkEvent "error" (i + 1) n none (some total) none none], [inv],
        Except.error (failMsg ++ toString i ++ ": " ++ (env i).stderr)⟩

/-- Events emitted by `monitor_ffmpeg_progress` (export.rs lines 496-515): one
`rendering` event per stderr line that parses, with percent
`min (time / total * 100) 99`. -/
def monitorEvents (total : ℚ) (cur n : Nat) (lines : List String) : List ProgressEvent :=
  lines.filterMap fun l =>
    (parse_ffmpeg_progress l).map fun p =>
      mkEvent "rendering" cur n (some p.1) (some total) p.2 (some (min (p.1 / total * 100) 99))

/-- Events emitted while monitoring the final assembly encode
(export.rs lines 446-457): one `finalizing` event per stderr line that parses,
with percent `min (50 + time / total * 50) 99`. -/
def finalMonitorEvents (total : ℚ) (n : Nat) (lines : List String) : List ProgressEvent :=
  lines.filterMap fun l =>
    (parse_ffmpeg_progress l).map fun p =>
      mkEvent "finalizing" n n (some p.1) (some total) p.2
        (some (min (50 + p.1 / total * 50) 99))

/-- Shallow embedding of `export_fast` (export.rs lines 118-220): preparing
event, per-segment stream-copy loop, 95% finalizing event, concat invocation,
and either a `complete` event at 100% or an `error` event. -/
def exportFast (segments : List ExportSegment) (outputPath : String) (env : Nat → ExtProc) :
    ExportResult :=
  let n := segments.length
  let total := totalDurationFast segments
  let lr := segLoop env total n 100 "FFmpeg segment extraction failed for segment " 0 0 segments
  match lr.res with
  | Except.error e => ⟨prepEvent n total :: lr.events, lr.invs, Except.error e, false⟩
  | Except.ok _ =>
    let concatInv : Invocation := ⟨outputPath, false, (env n).success, []⟩
    if (env n).success then
      ⟨prepEvent n total :: lr.events ++ [finalizingEvent n total 95, completeEvent n total],
        lr.invs ++ [concatInv], Except.ok outputPath, false⟩
    else
      ⟨prepEvent n total :: lr.events ++ [finalizingEvent n total 95, errorEvent n n total],
        lr.invs ++ [concatInv],
        Except.error ("FFmpeg concat failed: " ++ (env n).stderr), false⟩

/-- Shallow embedding of `export_with_fades` (export.rs lines 223-468): for one
segment a single monitored re-encode straight to the output path; for `n ≥ 2`
segments the per-segment intermediate loop (percent scale 50), a 50% finalizing
event, and the monitored assembly encode through the xfade filter graph. -/
def exportWithFades (segments : List ExportSegment) (outputPath : String)
    (opts : ExportOptions) (env : Nat → ExtProc) : ExportResult :=
  let n := segments.length
  let fd := opts.fade_duration
  let total := totalDurationFades segments fd
  if n == 1 then
    let rend := mkEvent "rendering" 1 1 (some 0) (some total) none (some 0)
    let mon := monitorEvents total 1 1 (env 0).lines
    let inv : Invocation := ⟨outputPath, false, (env 0).success, []⟩
    if (env 0).success then
      ⟨prepEvent n total :: rend :: mon ++ [completeEvent 1 total],
        [inv], Except.ok outputPath, false⟩
    else
      ⟨prepEvent n total :: rend :: mon ++ [errorEvent 1 1 total], [inv],
        Except.error "FFmpeg encoding failed", false⟩
  else
    let rend0 := mkEvent "rendering" 0 n (some 0) (some total) none (some 0)
    let lr := segLoop env total n 50 "FFmpeg segment encoding failed for segment " 0 0 segments
    match lr.res with
    | Except.error e => ⟨prepEvent n total :: rend0 :: lr.events, lr.invs, Except.error e, false⟩
    | Except.ok _ =>
      let mon := finalMonitorEvents total n (env n).lines
      let finalInv : Invocation :=
        ⟨outputPath, false, (env n).success, xfadeOffsets (segments.map segDuration) fd⟩
      if (env n).success then
        ⟨prepEvent n total :: rend0 ::
            (lr.events ++ (finalizingEvent n total 50 :: (mon ++ [completeEvent n total]))),
          lr.invs ++ [finalInv], Except.ok outputPath, false⟩
      else
        ⟨prepEvent n total :: rend0 ::
            (lr.events ++ (finalizingEvent n total 50 :: (mon ++ [errorEvent n n total]))),
          lr.invs ++ [finalInv], Except.error "FFmpeg xfade failed", false⟩

/-- Shallow embedding of the `export_video` command (export.rs lines 96-115):
empty segment lists fail fast; otherwise the mode test of line 108 dispatches
to the fast or the transition pipeline. -/
def export_video (segments : List ExportSegment) (outputPath : String)
    (options : Option ExportOptions) (env : Nat → ExtProc) : ExportResult :=
  if segments.isEmpty then ⟨[], [], Except.error "No segments to export", false⟩
  else
    let opts := options.getD ExportOptions.defaultValue
    if use_fades opts then exportWithFades segments outputPath opts env
    else exportFast segments outputPath env

/-- The percent values carried by a list of events, in emission order. -/
def percentsOf (evs : List ProgressEvent) : List ℚ := evs.filterMap (·.percent)

/-- The elapsed times the progress parser extracts from a stream of stderr
lines, in order (the times that drive the monitored-phase percent values). -/
def parsedTimes (lines : List String) : List ℚ :=
  lines.filterMap fun l => (parse_ffmpeg_progress l).map Prod.fst

/-- Number of external invocations the chosen mode performs when every process
succeeds: `n + 1` (per-segment plus concat) on the fast path, 1 for the
single-segment transition path, `n + 1` for the multi-segment transition path. -/
def plannedInvocations (segments : List ExportSegment) (opts : ExportOptions) : Nat :=
  if use_fades opts && segments.length == 1 then 1 else segments.length + 1

/-- Duration of the last segment (0 for an empty list). -/
def lastDuration (segments : List ExportSegment) : ℚ :=
  ((segments.map segDuration).getLast?).getD 0

/-- Whether a job outcome is the error case. -/
def isError (r : Except String String) : Bool :=
  match r with
  | Except.error _ => true
  | Except.ok _ => false

theorem rustParseFloat_eq_of_rep {s : List Char} {p : Int × Int}
    (h : floatRep s = some p) : rustParseFloat s = some (ratOfRep p) := by
  simp only [rustParseFloat, h, Option.map_some']

theorem splitOnChar_eq_single {sep : Char} {a : List Char} (ha : sep ∉ a) :
    splitOnChar sep a = [a] := by
  induction a with
  | nil => rfl
  | cons c t ih =>
    simp only [List.mem_cons, not_or] at ha
    have hc : (c == sep) = false := by
      simp only [beq_eq_false_iff_ne, ne_eq]
      exact fun h => ha.1 h.symm
    simp [splitOnChar, hc, ih ha.2]

theorem splitOnChar_sep_append {sep : Char} {a : List Char} (b : List Char) (ha : sep ∉ a) :
    splitOnChar sep (a ++ sep :: b) = a :: splitOnChar sep b := by
  induction a with
  | nil => simp [splitOnChar]
  | cons c t ih =>
    simp only [List.mem_cons, not_or] at ha
    have hc : (c == sep) = false := by
      simp only [beq_eq_false_iff_ne, ne_eq]
      exact fun h => ha.1 h.symm
    simp [splitOnChar, hc, ih ha.2]

theorem parse_isSome_contains {line : String}
    (h : (parse_ffmpeg_progress line).isSome = true) :
    containsSub line.toList timeMarker = true := by
  by_cases hc : containsSub line.toList timeMarker
  · exact hc
  · exfalso
    rw [Bool.not_eq_true] at hc
    unfold parse_ffmpeg_progress at h
    rw [hc] at h
    simp at h

theorem timeValueOf_three_parts {p0 p1 p2 : List Char}
    (h0 : ':' ∉ p0) (h1 : ':' ∉ p1) (h2 : ':' ∉ p2) :
    timeValueOf (p0 ++ ':' :: (p1 ++ ':' :: p2)) =
      some ((rustParseFloat p0).getD 0 * 3600 + (rustParseFloat p1).getD 0 * 60 +
        (rustParseFloat p2).getD 0) := by
  rw [timeValueOf, splitOnChar_sep_append _ h0, splitOnChar_sep_append _ h1,
    splitOnChar_eq_single h2]

/-- C6: for every input line the progress parser returns a sample only if the
line contains the time marker; an `HH:MM:SS.mmm` time value is converted to
seconds as `hours * 3600 + minutes * 60 + seconds` with each malformed numeric
field defaulting to 0 rather than rejecting the line, and the fps marker is
parsed as a plain decimal when present.  In particular, a line containing
`"time=00:01:02.50 "` and `"fps=29.97 "` yields elapsed 62.5 seconds with fps
29.97, and `"no time here"` yields none. -/
theorem parser_recognizes_time_and_fps :
    (∀ line : String, (parse_ffmpeg_progress line).isSome = true →
      containsSub line.toList timeMarker = true)
    ∧ (∀ p0 p1 p2 : List Char, ':' ∉ p0 → ':' ∉ p1 → ':' ∉ p2 →
        timeValueOf (p0 ++ ':' :: (p1 ++ ':' :: p2)) =
          some ((rustParseFloat p0).getD 0 * 3600 + (rustParseFloat p1).getD 0 * 60 +
            (rustParseFloat p2).getD 0))
    ∧ parse_ffmpeg_progress
        "frame=  120 fps=29.97 q=28.0 size=1024kB time=00:01:02.50 bitrate=2097.2kbits/s speed=2.0x"
        = some (125 / 2, some (2997 / 100))
    ∧ parse_ffmpeg_progress "no time here" = none
    ∧ parse_ffmpeg_progress "frame=1 time=aa:bb:cc x" = some (0, none) := by
  refine ⟨fun line h => parse_isSome_contains h,
    fun p0 p1 p2 h0 h1 h2 => timeValueOf_three_parts h0 h1 h2, ?_, by decide, ?_⟩
  · have ht : timeField ("frame=  120 fps=29.97 q=28.0 size=1024kB time=00:01:02.50 bitrate=2097.2kbits/s speed=2.0x").toList = some "00:01:02.50".toList := by decide
    have hf : fpsField ("frame=  120 fps=29.97 q=28.0 size=1024kB time=00:01:02.50 bitrate=2097.2kbits/s speed=2.0x").toList = some "29.97".toList := by decide
    have hs : splitOnChar ':' "00:01:02.50".toList =
        ["00".toList, "01".toList, "02.50".toList] := by decide
    have h0 : rustParseFloat "00".toList = some 0 := by
      rw [rustParseFloat_eq_of_rep (p := (0, 0)) (by decide)]
      norm_num [ratOfRep]
    have h1 : rustParseFloat "01".toList = some 1 := by
      rw [rustParseFloat_eq_of_rep (p := (1, 0)) (by decide)]
      norm_num [ratOfRep]
    have h2 : rustParseFloat "02.50".toList = some (5 / 2) := by
      rw [rustParseFloat_eq_of_rep (p := (250, -2)) (by decide)]
      norm_num [ratOfRep]
    have h29 : rustParseFloat "29.97".toList = some (2997 / 100) := by
      rw [rustParseFloat_eq_of_rep (p := (2997, -2)) (by decide)]
      norm_num [ratOfRep]
    unfold parse_ffmpeg_progress
    rw [if_neg (by decide), ht, hf]
    simp only [Option.some_bind, timeValueOf, hs, h0, h1, h2, h29, Option.getD_some,
      Option.map_some']
    norm_num
  · have ht : timeField ("frame=1 time=aa:bb:cc x").toList = some "aa:bb:cc".toList := by decide
    have hf : fpsField ("frame=1 time=aa:bb:cc x").toList = none := by decide
    have hs : splitOnChar ':' "aa:bb:cc".toList =
        ["aa".toList, "bb".toList, "cc".toList] := by decide
    have ha : rustParseFloat "aa".toList = none := by decide
    have hb : rustParseFloat "bb".toList = none := by decide
    have hcc : rustParseFloat "cc".toList = none := by decide
    unfold parse_ffmpeg_progress
    rw [if_neg (by decide), ht, hf]
    simp only [Option.some_bind, Option.none_bind, timeValueOf, hs, ha, hb, hcc,
      Option.getD_none, Option.map_some']
    norm_num

/-- Witness for `parser_recognizes_time_and_fps`: its universally quantified
parts applied at the sample line and at the three concrete time fields. -/
theorem parser_recognizes_time_and_fps_witness :
    containsSub ("frame=  120 fps=29.97 q=28.0 size=1024kB time=00:01:02.50 bitrate=2097.2kbits/s speed=2.0x").toList timeMarker = true
    ∧ timeValueOf ("00".toList ++ ':' :: ("01".toList ++ ':' :: "02.50".toList)) =
      some ((rustParseFloat "00".toList).getD 0 * 3600 +
        (rustParseFloat "01".toList).getD 0 * 60 + (rustParseFloat "02.50".toList).getD 0) :=
  ⟨parser_recognizes_time_and_fps.1
      "frame=  120 fps=29.97 q=28.0 size=1024kB time=00:01:02.50 bitrate=2097.2kbits/s speed=2.0x"
      (by rw [parser_recognizes_time_and_fps.2.2.1]; rfl),
    parser_recognizes_time_and_fps.2.1 "00".toList "01".toList "02.50".toList
      (by decide) (by decide) (by decide)⟩

theorem parse_no_space_after_time {line : String} {i : Nat}
    (hfind : findSub timeMarker line.toList = some i)
    (hsp : (line.toList.drop (i + 5)).findIdx? (· == ' ') = none) :
    parse_ffmpeg_progress line = none := by
  have ht : timeField line.toList = none := by
    simp only [timeField, hfind, hsp]
  by_cases hc : containsSub line.toList timeMarker
  · unfold parse_ffmpeg_progress
    rw [if_neg (by rw [hc]; decide), ht]
    rfl
  · rw [Bool.not_eq_true] at hc
    unfold parse_ffmpeg_progress
    rw [if_pos (by rw [hc]; decide)]

theorem parse_not_three_parts {line : String} {tp : List Char}
    (htf : timeField line.toList = some tp)
    (hlen : (splitOnChar ':' tp).length ≠ 3) :
    parse_ffmpeg_progress line = none := by
  have hv : timeValueOf tp = none := by
    unfold timeValueOf
    match hsp : splitOnChar ':' tp with
    | [] => rfl
    | [_] => rfl
    | [_, _] => rfl
    | [_, _, _] => exact absurd (by rw [hsp]; rfl) hlen
    | _ :: _ :: _ :: _ :: _ => rfl
  by_cases hc : containsSub line.toList timeMarker
  · unfold parse_ffmpeg_progress
    rw [if_neg (by rw [hc]; decide), htf]
    simp only [Option.some_bind, hv, Option.map_none']
  · rw [Bool.not_eq_true] at hc
    unfold parse_ffmpeg_progress
    rw [if_pos (by rw [hc]; decide)]

/-- C10: the progress parser yields a sample only when the text following the
first `"time="` marker contains a space; a line whose time value is the final
token yields none, a time value without exactly three `:`-separated parts
yields none, and a malformed fps field (or one not followed by a space) yields
an absent fps rather than 0. -/
theorem parser_rejection_behaviour :
    (∀ (line : String) (i : Nat), findSub timeMarker line.toList = some i →
      (line.toList.drop (i + 5)).findIdx? (· == ' ') = none →
      parse_ffmpeg_progress line = none)
    ∧ (∀ (line : String) (tp : List Char), timeField line.toList = some tp →
        (splitOnChar ':' tp).length ≠ 3 → parse_ffmpeg_progress line = none)
    ∧ parse_ffmpeg_progress "time=00:00:04.00" = none
    ∧ parse_ffmpeg_progress "frame=1 time=04.00 x" = none
    ∧ parse_ffmpeg_progress "time=00:00:04.00 fps=abc " = some (4, none)
    ∧ parse_ffmpeg_progress "time=00:00:04.00 fps=29.97" = some (4, none) := by
  refine ⟨fun line i h1 h2 => parse_no_space_after_time h1 h2,
    fun line tp h1 h2 => parse_not_three_parts h1 h2, by decide, by decide, ?_, ?_⟩
  · have ht : timeField ("time=00:00:04.00 fps=abc ").toList =
        some "00:00:04.00".toList := by decide
    have hf : fpsField ("time=00:00:04.00 fps=abc ").toList = some "abc".toList := by decide
    have hs : splitOnChar ':' "00:00:04.00".toList =
        ["00".toList, "00".toList, "04.00".toList] := by decide
    have h0 : rustParseFloat "00".toList = some 0 := by
      rw [rustParseFloat_eq_of_rep (p := (0, 0)) (by decide)]
      norm_num [ratOfRep]
    have h4 : rustParseFloat "04.00".toList = some 4 := by
      rw [rustParseFloat_eq_of_rep (p := (400, -2)) (by decide)]
      norm_num [ratOfRep]
    have habc : rustParseFloat "abc".toList = none := by decide
    unfold parse_ffmpeg_progress
    rw [if_neg (by decide), ht, hf]
    simp only [Option.some_bind, timeValueOf, hs, h0, h4, habc, Option.getD_some,
      Option.map_some']
    norm_num
  · have ht : timeField ("time=00:00:04.00 fps=29.97").toList =
        some "00:00:04.00".toList := by decide
    have hf : fpsField ("time=00:00:04.00 fps=29.97").toList = none := by decide
    have hs : splitOnChar ':' "00:00:04.00".toList =
        ["00".toList, "00".toList, "04.00".toList] := by decide
    have h0 : rustParseFloat "00".toList = some 0 := by
      rw [rustParseFloat_eq_of_rep (p := (0, 0)) (by decide)]
      norm_num [ratOfRep]
    have h4 : rustParseFloat "04.00".toList = some 4 := by
      rw [rustParseFloat_eq_of_rep (p := (400, -2)) (by decide)]
      norm_num [ratOfRep]
    unfold parse_ffmpeg_progress
    rw [if_neg (by decide), ht, hf]
    simp only [Option.some_bind, Option.none_bind, timeValueOf, hs, h0, h4,
      Option.getD_some, Option.map_some']
    norm_num

/-- Witness for `parser_rejection_behaviour`: its universally quantified parts
applied at concrete lines. -/
theorem parser_rejection_behaviour_witness :
    parse_ffmpeg_progress "a time=00:00:09.00" = none
    ∧ parse_ffmpeg_progress "b time=1:2 c" = none :=
  ⟨parser_rejection_behaviour.1 "a time=00:00:09.00" 2 (by decide) (by decide),
    parser_rejection_behaviour.2.1 "b time=1:2 c" "1:2".toList (by decide) (by decide)⟩

theorem xfadeOffsetsAux_length (f : ℚ) (l : List ℚ) : ∀ prev : ℚ,
    (xfadeOffsetsAux f prev l).length = l.length := by
  induction l with
  | nil => intro prev; rfl
  | cons d rest ih =>
    intro prev
    simp only [xfadeOffsetsAux, List.length_cons, ih]

theorem xfadeOffsetsAux_getD_succ (f : ℚ) (l : List ℚ) : ∀ (prev : ℚ) (j : ℕ),
    j + 1 < l.length →
    (xfadeOffsetsAux f prev l).getD (j + 1) 0 =
      (xfadeOffsetsAux f prev l).getD j 0 + l.getD (j + 1) 0 - f := by
  induction l with
  | nil => intro prev j h; simp at h
  | cons d rest ih =>
    intro prev j h
    match j with
    | 0 =>
      match rest, h with
      | r :: rest', _ =>
        simp [xfadeOffsetsAux, List.getD_cons_zero, List.getD_cons_succ]
    | j' + 1 =>
      simp only [xfadeOffsetsAux, List.getD_cons_succ]
      exact ih (prev + d - f) j' (by simpa using Nat.lt_of_succ_lt_succ h)

theorem getD_dropLast {l : List ℚ} {j : ℕ} (h : j < l.dropLast.length) :
    l.dropLast.getD j 0 = l.getD j 0 := by
  have h2 : j < l.length := by
    rw [List.length_dropLast] at h
    omega
  rw [List.getD_eq_getElem _ _ h, List.getD_eq_getElem _ _ h2, List.getElem_dropLast]

/-- C1: in multi-segment transition mode the cross-fade offsets satisfy
`offset[1] = duration[0] - fadeDuration` and, for `i ≥ 2`,
`offset[i] = offset[i-1] + duration[i-1] - fadeDuration` (stated here 0-based:
entry `i+1` of the offset list equals entry `i` plus `duration[i+1] - fade`);
there are `n - 1` offsets, and for durations `[5,5,5,5]` with fade 0.5 the
three offsets are `[4.5, 9.0, 13.5]`. -/
theorem xfade_offsets_recurrence (ds : List ℚ) (f : ℚ) (h2 : 2 ≤ ds.length) :
    (xfadeOffsets ds f).length = ds.length - 1
    ∧ (xfadeOffsets ds f).getD 0 0 = ds.getD 0 0 - f
    ∧ (∀ i : ℕ, i + 1 < (xfadeOffsets ds f).length →
        (xfadeOffsets ds f).getD (i + 1) 0 =
          (xfadeOffsets ds f).getD i 0 + ds.getD (i + 1) 0 - f)
    ∧ xfadeOffsets [5, 5, 5, 5] (1 / 2) = [9 / 2, 9, 27 / 2] := by
  match ds, h2 with
  | d0 :: d1 :: rest, _ =>
    refine ⟨?_, rfl, ?_, by norm_num [xfadeOffsets, xfadeOffsetsAux]⟩
    · simp only [xfadeOffsets, List.tail_cons, List.length_cons,
        xfadeOffsetsAux_length, List.length_dropLast]
      omega
    · intro i hi
      match i with
      | 0 =>
        match rest, hi with
        | r :: rest', _ =>
          simp [xfadeOffsets, xfadeOffsetsAux, List.dropLast]
      | j + 1 =>
        have hmid : j + 1 < ((d1 :: rest).dropLast).length := by
          simp only [xfadeOffsets, List.tail_cons, List.length_cons,
            xfadeOffsetsAux_length] at hi
          omega
        have hrec := xfadeOffsetsAux_getD_succ f ((d1 :: rest).dropLast) (d0 - f) j hmid
        have hds : ((d1 :: rest).dropLast).getD (j + 1) 0 = (d1 :: rest).getD (j + 1) 0 :=
          getD_dropLast hmid
        simp only [xfadeOffsets, List.tail_cons, List.getD_cons_succ]
        rw [hrec, hds, List.getD_cons_succ]

/-- Witness for `xfade_offsets_recurrence` at the 4-segment example of the
specification. -/
theorem xfade_offsets_recurrence_witness :
    2 ≤ ([5, 5, 5, 5] : List ℚ).length
    ∧ ((xfadeOffsets [5, 5, 5, 5] (1 / 2)).length = ([5, 5, 5, 5] : List ℚ).length - 1
      ∧ (xfadeOffsets [5, 5, 5, 5] (1 / 2)).getD 0 0 =
          ([5, 5, 5, 5] : List ℚ).getD 0 0 - 1 / 2
      ∧ (∀ i : ℕ, i + 1 < (xfadeOffsets [5, 5, 5, 5] (1 / 2)).length →
          (xfadeOffsets [5, 5, 5, 5] (1 / 2)).getD (i + 1) 0 =
            (xfadeOffsets [5, 5, 5, 5] (1 / 2)).getD i 0 +
              ([5, 5, 5, 5] : List ℚ).getD (i + 1) 0 - 1 / 2)
      ∧ xfadeOffsets [5, 5, 5, 5] (1 / 2) = [9 / 2, 9, 27 / 2]) :=
  ⟨by decide, xfade_offsets_recurrence [5, 5, 5, 5] (1 / 2) (by decide)⟩

/-- C3: for every non-empty segment list the export takes the fast stream-copy
path exactly when `options.preset` is `""` or `"fast"`; every other preset
takes the transition path.  The first conjunct characterizes the mode test of
export.rs line 108, the second shows `export_video` dispatches on it. -/
theorem fast_path_iff_preset (segments : List ExportSegment) (outputPath : String)
    (opts : ExportOptions) (env : Nat → ExtProc) (hne : segments ≠ []) :
    (use_fades opts = false ↔ opts.preset = "" ∨ opts.preset = "fast")
    ∧ export_video segments outputPath (some opts) env =
        (if use_fades opts then exportWithFades segments outputPath opts env
        else exportFast segments outputPath env) := by
  constructor
  · rw [use_fades, Bool.and_eq_false_iff]
    constructor
    · rintro (h | h)
      · right
        simpa using h
      · left
        rw [Bool.not_eq_false', String.isEmpty_iff] at h
        exact h
    · rintro (h | h)
      · right
        rw [Bool.not_eq_false', String.isEmpty_iff]
        exact h
      · left
        simpa using h
  · rw [export_video]
    rw [if_neg (by simpa [List.isEmpty_iff] using hne)]
    rfl

/-- Witness for `fast_path_iff_preset` at a concrete one-segment job with the
`"standard"` preset. -/
theorem fast_path_iff_preset_witness :
    ([⟨"src.mp4", 0, 1, none, none, none⟩] : List ExportSegment) ≠ []
    ∧ ((use_fades ⟨"standard", 1 / 2⟩ = false ↔
          (⟨"standard", 1 / 2⟩ : ExportOptions).preset = "" ∨
          (⟨"standard", 1 / 2⟩ : ExportOptions).preset = "fast")
      ∧ export_video [⟨"src.mp4", 0, 1, none, none, none⟩] "out.mp4"
          (some ⟨"standard", 1 / 2⟩) (fun _ => ⟨true, "", []⟩) =
        (if use_fades ⟨"standard", 1 / 2⟩ then
          exportWithFades [⟨"src.mp4", 0, 1, none, none, none⟩] "out.mp4"
            ⟨"standard", 1 / 2⟩ (fun _ => ⟨true, "", []⟩)
        else exportFast [⟨"src.mp4", 0, 1, none, none, none⟩] "out.mp4"
          (fun _ => ⟨true, "", []⟩))) :=
  ⟨by simp, fast_path_iff_preset [⟨"src.mp4", 0, 1, none, none, none⟩] "out.mp4"
    ⟨"standard", 1 / 2⟩ (fun _ => ⟨true, "", []⟩) (by simp)⟩

/-- C8 counterexample: the `"high"` preset selects transition mode, yet its
final-assembly encode uses CRF 18, the same constant as the per-segment
intermediate encode — the intermediate quality is not strictly higher than the
final quality for this preset (lower CRF = higher quality). -/
theorem high_preset_intermediate_not_strictly_better :
    use_fades ⟨"high", 1 / 2⟩ = true ∧ ¬(intermediateCrf < finalCrf "high") := by
  exact ⟨by decide, by decide⟩

/-- C8 amended: for every preset selecting transition mode the per-segment
intermediate encode uses the fixed frame rate 30 and a quality constant at
least as high as the final encode's (CRF 18 ≤ final CRF), strictly higher for
every such preset except `"high"` (whose final encode also uses CRF 18); and
the `"high"` preset's final encode uses a higher-quality (lower) constant than
`"standard"`. -/
theorem intermediate_quality_bounds (preset : String) (fd : ℚ)
    (_h : use_fades ⟨preset, fd⟩ = true) :
    intermediateCrf ≤ finalCrf preset
    ∧ (preset ≠ "high" → intermediateCrf < finalCrf preset)
    ∧ finalCrf "high" < finalCrf "standard"
    ∧ intermediateFrameRate = 30 := by
  refine ⟨?_, ?_, by decide, rfl⟩
  · by_cases hp : preset = "high"
    · simp [finalCrf, hp, intermediateCrf]
    · simp [finalCrf, hp, intermediateCrf]
  · intro hp
    simp [finalCrf, hp, intermediateCrf]

/-- Witness for `intermediate_quality_bounds` at the `"standard"` preset. -/
theorem intermediate_quality_bounds_witness :
    use_fades ⟨"standard", 0⟩ = true
    ∧ (intermediateCrf ≤ finalCrf "standard"
      ∧ ("standard" ≠ "high" → intermediateCrf < finalCrf "standard")
      ∧ finalCrf "high" < finalCrf "standard"
      ∧ intermediateFrameRate = 30) :=
  ⟨by decide, intermediate_quality_bounds "standard" 0 (by decide)⟩

/-- C9: an export of an empty segment list fails immediately with the
configuration error `"No segments to export"`, emits no progress events and
performs no external invocation, for every options value and environment. -/
theorem empty_segments_fail_fast (outputPath : String) (options : Option ExportOptions)
    (env : Nat → ExtProc) :
    export_video [] outputPath options env =
      ⟨[], [], Except.error "No segments to export", false⟩ := rfl

theorem segLoop_cons_pos {env : Nat → ExtProc} {total : ℚ} {n : Nat} {scale : ℚ}
    {msg : String} {i : Nat} {acc : ℚ} {s : ExportSegment} {rest : List ExportSegment}
    (hs : (env i).success = true) :
    segLoop env total n scale msg i acc (s :: rest) =
      ⟨mkEvent "rendering" (i + 1) n (some acc) (some total) none
          (some (acc / total * scale)) ::
          (segLoop env total n scale msg (i + 1) (acc + segDuration s) rest).events,
        (⟨"segment_" ++ pad4 i ++ ".mp4", true, (env i).success, []⟩ : Invocation) ::
          (segLoop env total n scale msg (i + 1) (acc + segDuration s) rest).invs,
        (segLoop env total n scale msg (i + 1) (acc + segDuration s) rest).res⟩ := by
  simp only [segLoop]
  rw [if_pos hs]

theorem segLoop_cons_neg {env : Nat → ExtProc} {total : ℚ} {n : Nat} {scale : ℚ}
    {msg : String} {i : Nat} {acc : ℚ} {s : ExportSegment} {rest : List ExportSegment}
    (hs : ¬((env i).success = true)) :
    segLoop env total n scale msg i acc (s :: rest) =
      ⟨[mkEvent "rendering" (i + 1) n (some acc) (some total) none
          (some (acc / total * scale)), errorEvent (i + 1) n total],
        [⟨"segment_" ++ pad4 i ++ ".mp4", true, (env i).success, []⟩],
        Except.error (msg ++ toString i ++ ": " ++ (env i).stderr)⟩ := by
  simp only [segLoop]
  rw [if_neg hs]
  rfl

theorem segLoop_totalTime (env : Nat → ExtProc) (total : ℚ) (n : Nat) (scale : ℚ)
    (msg : String) (segs : List ExportSegment) : ∀ (i : Nat) (acc : ℚ),
    ∀ ev ∈ (segLoop env total n scale msg i acc segs).events, ev.totalTime = some total := by
  induction segs with
  | nil =>
    intro i acc ev hev
    simp [segLoop] at hev
  | cons s rest ih =>
    intro i acc ev hev
    by_cases hs : (env i).success = true
    · rw [segLoop_cons_pos hs] at hev
      rcases List.mem_cons.mp hev with h | h
      · subst h; rfl
      · exact ih (i + 1) (acc + segDuration s) ev h
    · rw [segLoop_cons_neg hs] at hev
      rcases List.mem_cons.mp hev with h | h
      · subst h; rfl
      · rcases List.mem_singleton.mp h with h'
        subst h'; rfl

theorem segLoop_scratch (env : Nat → ExtProc) (total : ℚ) (n : Nat) (scale : ℚ)
    (msg : String) (segs : List ExportSegment) : ∀ (i : Nat) (acc : ℚ),
    ∀ inv ∈ (segLoop env total n scale msg i acc segs).invs, inv.inScratch = true := by
  induction segs with
  | nil =>
    intro i acc inv hinv
    simp [segLoop] at hinv
  | cons s rest ih =>
    intro i acc inv hinv
    by_cases hs : (env i).success = true
    · rw [segLoop_cons_pos hs] at hinv
      rcases List.mem_cons.mp hinv with h | h
      · subst h; rfl
      · exact ih (i + 1) (acc + segDuration s) inv h
    · rw [segLoop_cons_neg hs] at hinv
      rcases List.mem_singleton.mp hinv with h
      subst h; rfl

theorem segLoop_ok (env : Nat → ExtProc) (total : ℚ) (n : Nat) (scale : ℚ)
    (msg : String) (segs : List ExportSegment) : ∀ (i : Nat) (acc : ℚ),
    (∀ j, j < segs.length → (env (i + j)).success = true) →
    (segLoop env total n scale msg i acc segs).res =
        Except.ok (acc + (segs.map segDuration).sum)
    ∧ (∀ e ∈ (segLoop env total n scale msg i acc segs).events, e.phase = "rendering")
    ∧ (segLoop env total n scale msg i acc segs).invs.length = segs.length := by
  induction segs with
  | nil =>
    intro i acc _
    refine ⟨by simp [segLoop], ?_, by simp [segLoop]⟩
    intro e he
    simp [segLoop] at he
  | cons s rest ih =>
    intro i acc h
    have hs : (env i).success = true := by simpa using h 0 (Nat.succ_pos _)
    have hshift : ∀ j, j < rest.length → (env (i + 1 + j)).success = true := by
      intro j hj
      have he : i + 1 + j = i + (j + 1) := by omega
      rw [he]
      exact h (j + 1) (by simpa using Nat.succ_lt_succ hj)
    obtain ⟨hres, hph, hlen⟩ := ih (i + 1) (acc + segDuration s) hshift
    rw [segLoop_cons_pos hs]
    refine ⟨?_, ?_, ?_⟩
    · rw [hres]
      simp only [List.map_cons, List.sum_cons]
      ring_nf
    · intro e he
      rcases List.mem_cons.mp he with h' | h'
      · subst h'; rfl
      · exact hph e h'
    · simp [hlen]

theorem segLoop_fail (env : Nat → ExtProc) (total : ℚ) (n : Nat) (scale : ℚ)
    (msg : String) (segs : List ExportSegment) : ∀ (i : Nat) (acc : ℚ) (k : Nat),
    (∀ j, j < k → (env (i + j)).success = true) →
    (env (i + k)).success = false →
    k < segs.length →
    (segLoop env total n scale msg i acc segs).res =
        Except.error (msg ++ toString (i + k) ++ ": " ++ (env (i + k)).stderr)
    ∧ (∃ evs₀, (segLoop env total n scale msg i acc segs).events =
          evs₀ ++ [errorEvent (i + k + 1) n total]
        ∧ ∀ e ∈ evs₀, e.phase = "rendering")
    ∧ (segLoop env total n scale msg i acc segs).invs.length = k + 1 := by
  induction segs with
  | nil =>
    intro i acc k _ _ hk
    simp at hk
  | cons s rest ih =>
    intro i acc k h1 h2 hk
    match k with
    | 0 =>
      have hs : ¬((env i).success = true) := by
        simpa using h2
      rw [segLoop_cons_neg hs]
      refine ⟨by simp, ?_, rfl⟩
      refine ⟨[mkEvent "rendering" (i + 1) n (some acc) (some total) none
        (some (acc / total * scale))], by simp, ?_⟩
      intro e he
      rcases List.mem_singleton.mp he with h'
      subst h'; rfl
    | k' + 1 =>
      have hs : (env i).success = true := h1 0 (Nat.succ_pos _)
      have hof : i + 1 + k' = i + (k' + 1) := by omega
      have h1' : ∀ j, j < k' → (env (i + 1 + j)).success = true := by
        intro j hj
        have he : i + 1 + j = i + (j + 1) := by omega
        rw [he]
        exact h1 (j + 1) (Nat.succ_lt_succ hj)
      have h2' : (env (i + 1 + k')).success = false := by rw [hof]; exact h2
      obtain ⟨hres, ⟨evs₀, hev, hph⟩, hlen⟩ :=
        ih (i + 1) (acc + segDuration s) k' h1' h2' (by simpa using Nat.lt_of_succ_lt_succ hk)
      rw [segLoop_cons_pos hs]
      refine ⟨?_, ?_, ?_⟩
      · rw [hres, hof]
      · refine ⟨mkEvent "rendering" (i + 1) n (some acc) (some total) none
          (some (acc / total * scale)) :: evs₀, ?_, ?_⟩
        · rw [hev, hof]
          rfl
        · intro e he
          rcases List.mem_cons.mp he with h' | h'
          · subst h'; rfl
          · exact hph e h'
      · simp [hlen]

theorem exportFast_eq_error {segments : List ExportSegment} {outputPath : String}
    {env : Nat → ExtProc} {e : String}
    (h : (segLoop env (totalDurationFast segments) segments.length 100
      "FFmpeg segment extraction failed for segment " 0 0 segments).res = Except.error e) :
    exportFast segments outputPath env =
      ⟨prepEvent segments.length (totalDurationFast segments) ::
          (segLoop env (totalDurationFast segments) segments.length 100
            "FFmpeg segment extraction failed for segment " 0 0 segments).events,
        (segLoop env (totalDurationFast segments) segments.length 100
          "FFmpeg segment extraction failed for segment " 0 0 segments).invs,
        Except.error e, false⟩ := by
  simp only [exportFast]
  rw [h]

theorem exportFast_eq_ok {segments : List ExportSegment} {outputPath : String}
    {env : Nat → ExtProc} {q : ℚ}
    (h : (segLoop env (totalDurationFast segments) segments.length 100
      "FFmpeg segment extraction failed for segment " 0 0 segments).res = Except.ok q) :
    exportFast segments outputPath env =
      (if (env segments.length).success then
        ⟨prepEvent segments.length (totalDurationFast segments) ::
            (segLoop env (totalDurationFast segments) segments.length 100
              "FFmpeg segment extraction failed for segment " 0 0 segments).events ++
            [finalizingEvent segments.length (totalDurationFast segments) 95,
              completeEvent segments.length (totalDurationFast segments)],
          (segLoop env (totalDurationFast segments) segments.length 100
            "FFmpeg segment extraction failed for segment " 0 0 segments).invs ++
            [⟨outputPath, false, (env segments.length).success, []⟩],
          Except.ok outputPath, false⟩
      else
        ⟨prepEvent segments.length (totalDurationFast segments) ::
            (segLoop env (totalDurationFast segments) segments.length 100
              "FFmpeg segment extraction failed for segment " 0 0 segments).events ++
            [finalizingEvent segments.length (totalDurationFast segments) 95,
              errorEvent segments.length segments.length (totalDurationFast segments)],
          (segLoop env (totalDurationFast segments) segments.length 100
            "FFmpeg segment extraction failed for segment " 0 0 segments).invs ++
            [⟨outputPath, false, (env segments.length).success, []⟩],
          Except.error ("FFmpeg concat failed: " ++ (env segments.length).stderr), false⟩) := by
  simp only [exportFast]
  rw [h]

theorem exportWithFades_eq_single {segments : List ExportSegment} {outputPath : String}
    {opts : ExportOptions} {env : Nat → ExtProc} (h1 : segments.length = 1) :
    exportWithFades segments outputPath opts env =
      (if (env 0).success then
        ⟨prepEvent segments.length (totalDurationFades segments opts.fade_duration) ::
            mkEvent "rendering" 1 1 (some 0)
              (some (totalDurationFades segments opts.fade_duration)) none (some 0) ::
            monitorEvents (totalDurationFades segments opts.fade_duration) 1 1
              (env 0).lines ++
            [completeEvent 1 (totalDurationFades segments opts.fade_duration)],
          [⟨outputPath, false, (env 0).success, []⟩], Except.ok outputPath, false⟩
      else
        ⟨prepEvent segments.length (totalDurationFades segments opts.fade_duration) ::
            mkEvent "rendering" 1 1 (some 0)
              (some (totalDurationFades segments opts.fade_duration)) none (some 0) ::
            monitorEvents (totalDurationFades segments opts.fade_duration) 1 1
              (env 0).lines ++
            [errorEvent 1 1 (totalDurationFades segments opts.fade_duration)],
          [⟨outputPath, false, (env 0).success, []⟩],
          Except.error "FFmpeg encoding failed", false⟩) := by
  simp only [exportWithFades]
  rw [if_pos (by rw [h1]; rfl)]

theorem exportWithFades_eq_multi_error {segments : List ExportSegment} {outputPath : String}
    {opts : ExportOptions} {env : Nat → ExtProc} {e : String}
    (h1 : (segments.length == 1) = false)
    (h : (segLoop env (totalDurationFades segments opts.fade_duration) segments.length 50
      "FFmpeg segment encoding failed for segment " 0 0 segments).res = Except.error e) :
    exportWithFades segments outputPath opts env =
      ⟨prepEvent segments.length (totalDurationFades segments opts.fade_duration) ::
          mkEvent "rendering" 0 segments.length (some 0)
            (some (totalDurationFades segments opts.fade_duration)) none (some 0) ::
          (segLoop env (totalDurationFades segments opts.fade_duration) segments.length 50
            "FFmpeg segment encoding failed for segment " 0 0 segments).events,
        (segLoop env (totalDurationFades segments opts.fade_duration) segments.length 50
          "FFmpeg segment encoding failed for segment " 0 0 segments).invs,
        Except.error e, false⟩ := by
  simp only [exportWithFades]
  rw [if_neg (by simp [h1]), h]

theorem exportWithFades_eq_multi_ok {segments : List ExportSegment} {outputPath : String}
    {opts : ExportOptions} {env : Nat → ExtProc} {q : ℚ}
    (h1 : (segments.length == 1) = false)
    (h : (segLoop env (totalDurationFades segments opts.fade_duration) segments.length 50
      "FFmpeg segment encoding failed for segment " 0 0 segments).res = Except.ok q) :
    exportWithFades segments outputPath opts env =
      (if (env segments.length).success then
        ⟨prepEvent segments.length (totalDurationFades segments opts.fade_duration) ::
            mkEvent "rendering" 0 segments.length (some 0)
              (some (totalDurationFades segments opts.fade_duration)) none (some 0) ::
            ((segLoop env (totalDurationFades segments opts.fade_duration) segments.length 50
              "FFmpeg segment encoding failed for segment " 0 0 segments).events ++
            (finalizingEvent segments.length
              (totalDurationFades segments opts.fade_duration) 50 ::
            (finalMonitorEvents (totalDurationFades segments opts.fade_duration)
              segments.length (env segments.length).lines ++
            [completeEvent segments.length
              (totalDurationFades segments opts.fade_duration)]))),
          (segLoop env (totalDurationFades segments opts.fade_duration) segments.length 50
            "FFmpeg segment encoding failed for segment " 0 0 segments).invs ++
            [⟨outputPath, false, (env segments.length).success,
              xfadeOffsets (segments.map segDuration) opts.fade_duration⟩],
          Except.ok outputPath, false⟩
      else
        ⟨prepEvent segments.length (totalDurationFades segments opts.fade_duration) ::
            mkEvent "rendering" 0 segments.length (some 0)
              (some (totalDurationFades segments opts.fade_duration)) none (some 0) ::
            ((segLoop env (totalDurationFades segments opts.fade_duration) segments.length 50
              "FFmpeg segment encoding failed for segment " 0 0 segments).events ++
            (finalizingEvent segments.length
              (totalDurationFades segments opts.fade_duration) 50 ::
            (finalMonitorEvents (totalDurationFades segments opts.fade_duration)
              segments.length (env segments.length).lines ++
            [errorEvent segments.length segments.length
              (totalDurationFades segments opts.fade_duration)]))),
          (segLoop env (totalDurationFades segments opts.fade_duration) segments.length 50
            "FFmpeg segment encoding failed for segment " 0 0 segments).invs ++
            [⟨outputPath, false, (env segments.length).success,
              xfadeOffsets (segments.map segDuration) opts.fade_duration⟩],
          Except.error "FFmpeg xfade failed", false⟩) := by
  simp only [exportWithFades]
  rw [if_neg (by simp [h1]), h]

theorem monitorEvents_mem {total : ℚ} {cur n : Nat} {lines : List String} :
    ∀ e ∈ monitorEvents total cur n lines,
      e.phase = "rendering" ∧ e.totalTime = some total := by
  intro e he
  simp only [monitorEvents, List.mem_filterMap] at he
  obtain ⟨l, _, hl⟩ := he
  rcases hp : parse_ffmpeg_progress l with _ | p
  · rw [hp] at hl
    simp at hl
  · rw [hp, Option.map_some'] at hl
    cases hl
    exact ⟨rfl, rfl⟩

theorem finalMonitorEvents_mem {total : ℚ} {n : Nat} {lines : List String} :
    ∀ e ∈ finalMonitorEvents total n lines,
      e.phase = "finalizing" ∧ e.totalTime = some total := by
  intro e he
  simp only [finalMonitorEvents, List.mem_filterMap] at he
  obtain ⟨l, _, hl⟩ := he
  rcases hp : parse_ffmpeg_progress l with _ | p
  · rw [hp] at hl
    simp at hl
  · rw [hp, Option.map_some'] at hl
    cases hl
    exact ⟨rfl, rfl⟩

/-- C2: for every non-empty segment list every event emitted by the fast path
carries `totalTime = Σ durations`, every event emitted by the transition path
carries `totalTime = Σ durations - fadeDuration × (n - 1)`, and the
saturating-subtraction form used by the code agrees with the arithmetic form of
the specification. -/
theorem total_duration_of_modes (segments : List ExportSegment) (outputPath : String)
    (opts : ExportOptions) (env : Nat → ExtProc) (hne : segments ≠ []) :
    (∀ ev ∈ (exportFast segments outputPath env).events,
      ev.totalTime = some (totalDurationFast segments))
    ∧ (∀ ev ∈ (exportWithFades segments outputPath opts env).events,
      ev.totalTime = some (totalDurationFades segments opts.fade_duration))
    ∧ totalDurationFades segments opts.fade_duration =
        totalDurationFast segments - opts.fade_duration * ((segments.length : ℚ) - 1) := by
  refine ⟨?_, ?_, ?_⟩
  · intro ev hev
    rcases hres : (segLoop env (totalDurationFast segments) segments.length 100
        "FFmpeg segment extraction failed for segment " 0 0 segments).res with e | q
    · rw [exportFast_eq_error hres] at hev
      rcases List.mem_cons.mp hev with h | h
      · subst h; rfl
      · exact segLoop_totalTime env _ _ _ _ segments 0 0 ev h
    · rw [exportFast_eq_ok hres] at hev
      by_cases hs : (env segments.length).success = true
      · rw [if_pos hs] at hev
        rcases List.mem_cons.mp hev with h | h
        · subst h; rfl
        · rcases List.mem_append.mp h with h' | h'
          · exact segLoop_totalTime env _ _ _ _ segments 0 0 ev h'
          · rcases List.mem_cons.mp h' with h'' | h''
            · subst h''; rfl
            · rcases List.mem_singleton.mp h'' with h3
              subst h3; rfl
      · rw [if_neg hs] at hev
        rcases List.mem_cons.mp hev with h | h
        · subst h; rfl
        · rcases List.mem_append.mp h with h' | h'
          · exact segLoop_totalTime env _ _ _ _ segments 0 0 ev h'
          · rcases List.mem_cons.mp h' with h'' | h''
            · subst h''; rfl
            · rcases List.mem_singleton.mp h'' with h3
              subst h3; rfl
  · intro ev hev
    by_cases h1 : segments.length = 1
    · rw [exportWithFades_eq_single h1] at hev
      by_cases hs : (env 0).success = true
      · rw [if_pos hs] at hev
        rcases List.mem_cons.mp hev with h | h
        · subst h; rfl
        · rcases List.mem_cons.mp h with h' | h'
          · subst h'; rfl
          · rcases List.mem_append.mp h' with h'' | h''
            · exact (monitorEvents_mem ev h'').2
            · rcases List.mem_singleton.mp h'' with h3
              subst h3; rfl
      · rw [if_neg hs] at hev
        rcases List.mem_cons.mp hev with h | h
        · subst h; rfl
        · rcases List.mem_cons.mp h with h' | h'
          · subst h'; rfl
          · rcases List.mem_append.mp h' with h'' | h''
            · exact (monitorEvents_mem ev h'').2
            · rcases List.mem_singleton.mp h'' with h3
              subst h3; rfl
    · have h1' : (segments.length == 1) = false := by simpa using h1
      rcases hres : (segLoop env (totalDurationFades segments opts.fade_duration)
          segments.length 50 "FFmpeg segment encoding failed for segment "
          0 0 segments).res with e | q
      · rw [exportWithFades_eq_multi_error h1' hres] at hev
        rcases List.mem_cons.mp hev with h | h
        · subst h; rfl
        · rcases List.mem_cons.mp h with h' | h'
          · subst h'; rfl
          · exact segLoop_totalTime env _ _ _ _ segments 0 0 ev h'
      · rw [exportWithFades_eq_multi_ok h1' hres] at hev
        by_cases hs : (env segments.length).success = true
        · rw [if_pos hs] at hev
          rcases List.mem_cons.mp hev with h | h
          · subst h; rfl
          · rcases List.mem_cons.mp h with h' | h'
            · subst h'; rfl
            · rcases List.mem_append.mp h' with h'' | h''
              · exact segLoop_totalTime env _ _ _ _ segments 0 0 ev h''
              · rcases List.mem_cons.mp h'' with h3 | h3
                · subst h3; rfl
                · rcases List.mem_append.mp h3 with h4 | h4
                  · exact (finalMonitorEvents_mem ev h4).2
                  · rcases List.mem_singleton.mp h4 with h5
                    subst h5; rfl
        · rw [if_neg hs] at hev
          rcases List.mem_cons.mp hev with h | h
          · subst h; rfl
          · rcases List.mem_cons.mp h with h' | h'
            · subst h'; rfl
            · rcases List.mem_append.mp h' with h'' | h''
              · exact segLoop_totalTime env _ _ _ _ segments 0 0 ev h''
              · rcases List.mem_cons.mp h'' with h3 | h3
                · subst h3; rfl
                · rcases List.mem_append.mp h3 with h4 | h4
                  · exact (finalMonitorEvents_mem ev h4).2
                  · rcases List.mem_singleton.mp h4 with h5
                    subst h5; rfl
  · have hlen : 1 ≤ segments.length := List.length_pos.mpr hne
    rw [totalDurationFades, totalDurationFast, Nat.cast_sub hlen, Nat.cast_one]

theorem export_video_nonempty {segments : List ExportSegment} {outputPath : String}
    {options : Option ExportOptions} {env : Nat → ExtProc} (hne : segments ≠ []) :
    export_video segments outputPath options env =
      if use_fades (options.getD ExportOptions.defaultValue) then
        exportWithFades segments outputPath (options.getD ExportOptions.defaultValue) env
      else exportFast segments outputPath env := by
  rw [export_video, if_neg (by simpa [List.isEmpty_iff] using hne)]

/-- Witness for `total_duration_of_modes`: the 4-segment example of the
specification, where the transition-mode total is 18.5. -/
theorem total_duration_of_modes_witness :
    ([⟨"a", 0, 5, none, none, none⟩, ⟨"b", 0, 5, none, none, none⟩,
        ⟨"c", 0, 5, none, none, none⟩, ⟨"d", 0, 5, none, none, none⟩] :
      List ExportSegment) ≠ []
    ∧ totalDurationFades
        [⟨"a", 0, 5, none, none, none⟩, ⟨"b", 0, 5, none, none, none⟩,
          ⟨"c", 0, 5, none, none, none⟩, ⟨"d", 0, 5, none, none, none⟩] (1 / 2) = 37 / 2 :=
  ⟨by simp, by
    rw [(total_duration_of_modes
      [⟨"a", 0, 5, none, none, none⟩, ⟨"b", 0, 5, none, none, none⟩,
        ⟨"c", 0, 5, none, none, none⟩, ⟨"d", 0, 5, none, none, none⟩] "out.mp4"
      ⟨"standard", 1 / 2⟩ (fun _ => ⟨true, "", []⟩) (by simp)).2.2]
    norm_num [totalDurationFast, segDuration]⟩

/-- C7 counterexample: a fast-mode job whose final concat invocation fails is a
failing job whose failed invocation has the caller-specified output path as its
destination, outside the scratch area — the code hands `output_path` directly
to the final encoder invocation and performs no cleanup of it on failure, so a
partial file can be left at the destination. -/
theorem failing_export_targets_output_path :
    isError (export_video [⟨"a.mp4", 0, 1, none, none, none⟩] "out.mp4" none
        (fun i => if i == 0 then ⟨true, "", []⟩ else ⟨false, "boom", []⟩)).result = true
    ∧ ¬(∀ inv ∈ (export_video [⟨"a.mp4", 0, 1, none, none, none⟩] "out.mp4" none
        (fun i => if i == 0 then ⟨true, "", []⟩ else ⟨false, "boom", []⟩)).invocations,
        inv.success = false → inv.inScratch = true) := by
  constructor
  · decide
  · decide

/-- C7 amended: every invocation except possibly the final one writes inside
the job's scratch directory, every invocation outside the scratch directory
writes to the caller-specified output path (so a failure during per-segment
processing leaves nothing at the output path, while a failing final assembly
may leave a partial file there, the job performing no cleanup of it), and the
scratch directory itself is gone when the job returns. -/
theorem scratch_confinement (segments : List ExportSegment) (outputPath : String)
    (options : Option ExportOptions) (env : Nat → ExtProc) :
    (∀ inv ∈ (export_video segments outputPath options env).invocations.dropLast,
      inv.inScratch = true)
    ∧ (∀ inv ∈ (export_video segments outputPath options env).invocations,
      inv.inScratch = false → inv.dest = outputPath)
    ∧ (export_video segments outputPath options env).scratchPresent = false := by
  by_cases hne : segments = []
  · subst hne
    exact ⟨by simp [export_video], by simp [export_video], rfl⟩
  · rw [export_video_nonempty hne]
    by_cases hf : use_fades (options.getD ExportOptions.defaultValue) = true
    · rw [if_pos hf]
      by_cases h1 : segments.length = 1
      · rw [exportWithFades_eq_single h1]
        by_cases hs : (env 0).success = true
        · rw [if_pos hs]
          refine ⟨by simp, ?_, rfl⟩
          intro inv hinv _
          rcases List.mem_singleton.mp hinv with h
          subst h
          rfl
        · rw [if_neg hs]
          refine ⟨by simp, ?_, rfl⟩
          intro inv hinv _
          rcases List.mem_singleton.mp hinv with h
          subst h
          rfl
      · have h1' : (segments.length == 1) = false := by simpa using h1
        rcases hres : (segLoop env (totalDurationFades segments
            (options.getD ExportOptions.defaultValue).fade_duration) segments.length 50
            "FFmpeg segment encoding failed for segment " 0 0 segments).res with e | q
        · rw [exportWithFades_eq_multi_error h1' hres]
          refine ⟨?_, ?_, rfl⟩
          · intro inv hinv
            exact segLoop_scratch env _ _ _ _ segments 0 0 inv
              ((List.dropLast_sublist _).subset hinv)
          · intro inv hinv hsc
            have hl := segLoop_scratch env _ _ _ _ segments 0 0 inv hinv
            rw [hl] at hsc
            cases hsc
        · rw [exportWithFades_eq_multi_ok h1' hres]
          by_cases hs : (env segments.length).success = true
          · rw [if_pos hs]
            refine ⟨?_, ?_, rfl⟩
            · intro inv hinv
              rw [List.dropLast_concat] at hinv
              exact segLoop_scratch env _ _ _ _ segments 0 0 inv hinv
            · intro inv hinv hsc
              rcases List.mem_append.mp hinv with h | h
              · have hl := segLoop_scratch env _ _ _ _ segments 0 0 inv h
                rw [hl] at hsc
                cases hsc
              · rcases List.mem_singleton.mp h with h'
                subst h'
                rfl
          · rw [if_neg hs]
            refine ⟨?_, ?_, rfl⟩
            · intro inv hinv
              rw [List.dropLast_concat] at hinv
              exact segLoop_scratch env _ _ _ _ segments 0 0 inv hinv
            · intro inv hinv hsc
              rcases List.mem_append.mp hinv with h | h
              · have hl := segLoop_scratch env _ _ _ _ segments 0 0 inv h
                rw [hl] at hsc
                cases hsc
              · rcases List.mem_singleton.mp h with h'
                subst h'
                rfl
    · rw [if_neg hf]
      rcases hres : (segLoop env (totalDurationFast segments) segments.length 100
          "FFmpeg segment extraction failed for segment " 0 0 segments).res with e | q
      · rw [exportFast_eq_error hres]
        refine ⟨?_, ?_, rfl⟩
        · intro inv hinv
          exact segLoop_scratch env _ _ _ _ segments 0 0 inv
            ((List.dropLast_sublist _).subset hinv)
        · intro inv hinv hsc
          have hl := segLoop_scratch env _ _ _ _ segments 0 0 inv hinv
          rw [hl] at hsc
          cases hsc
      · rw [exportFast_eq_ok hres]
        by_cases hs : (env segments.length).success = true
        · rw [if_pos hs]
          refine ⟨?_, ?_, rfl⟩
          · intro inv hinv
            rw [List.dropLast_concat] at hinv
            exact segLoop_scratch env _ _ _ _ segments 0 0 inv hinv
          · intro inv hinv hsc
            rcases List.mem_append.mp hinv with h | h
            · have hl := segLoop_scratch env _ _ _ _ segments 0 0 inv h
              rw [hl] at hsc
              cases hsc
            · rcases List.mem_singleton.mp h with h'
              subst h'
              rfl
        · rw [if_neg hs]
          refine ⟨?_, ?_, rfl⟩
          · intro inv hinv
            rw [List.dropLast_concat] at hinv
            exact segLoop_scratch env _ _ _ _ segments 0 0 inv hinv
          · intro inv hinv hsc
            rcases List.mem_append.mp hinv with h | h
            · have hl := segLoop_scratch env _ _ _ _ segments 0 0 inv h
              rw [hl] at hsc
              cases hsc
            · rcases List.mem_singleton.mp h with h'
              subst h'
              rfl

theorem filter_error_append : ∀ (l : List ProgressEvent),
    (∀ e ∈ l, ¬(e.phase = "error")) → ∀ tl : List ProgressEvent,
    (l ++ tl).filter (fun e => e.phase == "error") =
      tl.filter (fun e => e.phase == "error") := by
  intro l
  induction l with
  | nil => intro _ tl; rfl
  | cons a t ih =>
    intro h1 tl
    have ha : (a.phase == "error") = false := by
      simpa using h1 a (List.mem_cons_self a t)
    simp only [List.cons_append, List.filter_cons, ha, Bool.false_eq_true, if_false]
    exact ih (fun e he => h1 e (List.mem_cons_of_mem a he)) tl

theorem one_error_last {l : List ProgressEvent} {ev : ProgressEvent}
    (h1 : ∀ e ∈ l, ¬(e.phase = "error")) (hev : ev.phase = "error") :
    ((l ++ [ev]).filter (fun e => e.phase == "error")).length = 1
    ∧ (l ++ [ev]).getLast? = some ev := by
  refine ⟨?_, List.getLast?_concat l⟩
  rw [filter_error_append l h1 [ev]]
  simp [List.filter_cons, hev]

theorem findSub_of_prefix {pat hay : List Char} (h : pat.isPrefixOf hay = true) :
    findSub pat hay = some 0 := by
  match hay with
  | [] => simp [findSub, h]
  | c :: t => simp [findSub, h]

theorem findSub_cons_isSome {pat : List Char} {c : Char} {t : List Char}
    (h : (findSub pat t).isSome = true) : (findSub pat (c :: t)).isSome = true := by
  simp only [findSub]
  by_cases hp : pat.isPrefixOf (c :: t) = true
  · rw [if_pos hp]
    rfl
  · rw [if_neg hp]
    rcases hs : findSub pat t with _ | v
    · rw [hs] at h
      cases h
    · rfl

theorem containsSub_append_middle : ∀ (p t r : List Char),
    containsSub (p ++ (t ++ r)) t = true := by
  intro p t r
  induction p with
  | nil =>
    rw [List.nil_append, containsSub,
      findSub_of_prefix (List.isPrefixOf_iff_prefix.mpr (List.prefix_append t r))]
    rfl
  | cons c p' ih =>
    rw [List.cons_append, containsSub]
    exact findSub_cons_isSome ih

theorem toList_append (s t : String) : (s ++ t).toList = s.toList ++ t.toList :=
  String.data_append s t

/-- C5: when the first failing external invocation is the `k`-th spawned
process (every earlier one succeeds), the job emits exactly one `error` event,
that event is the last event emitted, it carries the failed segment's index
(`currentSegment = k + 1`) when a per-segment invocation failed, the returned
error message references that segment's index in the per-segment case, exactly
`k + 1` invocations are performed (no further work after the failure), and the
scratch directory is not present when the call returns. -/
theorem first_failure_aborts (segments : List ExportSegment) (outputPath : String)
    (options : Option ExportOptions) (env : Nat → ExtProc) (k : Nat)
    (hne : segments ≠ [])
    (hk : k < plannedInvocations segments (options.getD ExportOptions.defaultValue))
    (hpre : ∀ j, j < k → (env j).success = true)
    (hfail : (env k).success = false) :
    ((export_video segments outputPath options env).events.filter
        (fun e => e.phase == "error")).length = 1
    ∧ (∃ ev, (export_video segments outputPath options env).events.getLast? = some ev
        ∧ ev.phase = "error"
        ∧ ((k < segments.length ∧ plannedInvocations segments
              (options.getD ExportOptions.defaultValue) = segments.length + 1) →
            ev.currentSegment = k + 1))
    ∧ (∃ msg, (export_video segments outputPath options env).result = Except.error msg
        ∧ ((k < segments.length ∧ plannedInvocations segments
              (options.getD ExportOptions.defaultValue) = segments.length + 1) →
            strContains msg (toString k) = true))
    ∧ (export_video segments outputPath options env).invocations.length = k + 1
    ∧ (export_video segments outputPath options env).scratchPresent = false := by
  rw [export_video_nonempty hne]
  by_cases hf : use_fades (options.getD ExportOptions.defaultValue) = true
  · rw [if_pos hf]
    by_cases h1 : segments.length = 1
    · have hplan : plannedInvocations segments (options.getD ExportOptions.defaultValue)
          = 1 := by
        simp [plannedInvocations, hf, h1]
      have hk0 : k = 0 := by
        rw [hplan] at hk
        omega
      subst hk0
      have hguard : ¬(0 < segments.length ∧ plannedInvocations segments
          (options.getD ExportOptions.defaultValue) = segments.length + 1) := by
        rintro ⟨_, hg2⟩
        rw [hplan] at hg2
        omega
      rw [exportWithFades_eq_single h1, if_neg (by simp [hfail])]
      have hnoerr : ∀ e ∈ prepEvent segments.length (totalDurationFades segments
            (options.getD ExportOptions.defaultValue).fade_duration) ::
            mkEvent "rendering" 1 1 (some 0) (some (totalDurationFades segments
              (options.getD ExportOptions.defaultValue).fade_duration)) none (some 0) ::
            monitorEvents (totalDurationFades segments
              (options.getD ExportOptions.defaultValue).fade_duration) 1 1 (env 0).lines,
          ¬(e.phase = "error") := by
        intro e he
        rcases List.mem_cons.mp he with h | h
        · subst h
          simp [prepEvent, mkEvent]
        · rcases List.mem_cons.mp h with h' | h'
          · subst h'
            simp [mkEvent]
          · rw [(monitorEvents_mem e h').1]
            simp
      have hshape : prepEvent segments.length (totalDurationFades segments
            (options.getD ExportOptions.defaultValue).fade_duration) ::
            mkEvent "rendering" 1 1 (some 0) (some (totalDurationFades segments
              (options.getD ExportOptions.defaultValue).fade_duration)) none (some 0) ::
            monitorEvents (totalDurationFades segments
              (options.getD ExportOptions.defaultValue).fade_duration) 1 1 (env 0).lines ++
            [errorEvent 1 1 (totalDurationFades segments
              (options.getD ExportOptions.defaultValue).fade_duration)] =
          (prepEvent segments.length (totalDurationFades segments
            (options.getD ExportOptions.defaultValue).fade_duration) ::
            mkEvent "rendering" 1 1 (some 0) (some (totalDurationFades segments
              (options.getD ExportOptions.defaultValue).fade_duration)) none (some 0) ::
            monitorEvents (totalDurationFades segments
              (options.getD ExportOptions.defaultValue).fade_duration) 1 1 (env 0).lines) ++
          [errorEvent 1 1 (totalDurationFades segments
            (options.getD ExportOptions.defaultValue).fade_duration)] := by
        simp
      obtain ⟨hcount, hlast⟩ := one_error_last hnoerr
        (show (errorEvent 1 1 (totalDurationFades segments
          (options.getD ExportOptions.defaultValue).fade_duration)).phase = "error" from rfl)
      rw [hshape] at *
      exact ⟨hcount, ⟨_, hlast, rfl, fun hG => absurd hG hguard⟩,
        ⟨_, rfl, fun hG => absurd hG hguard⟩, rfl, rfl⟩
    · have h1' : (segments.length == 1) = false := by simpa using h1
      have hplan : plannedInvocations segments (options.getD ExportOptions.defaultValue)
          = segments.length + 1 := by
        simp [plannedInvocations, h1']
      rw [hplan] at hk
      rcases Nat.lt_succ_iff_lt_or_eq.mp hk with hkn | hkn
      · obtain ⟨hres, ⟨evs₀, hev, hph⟩, hlen⟩ :=
          segLoop_fail env (totalDurationFades segments
              (options.getD ExportOptions.defaultValue).fade_duration) segments.length 50
            "FFmpeg segment encoding failed for segment " segments 0 0 k
            (fun j hj => by rw [Nat.zero_add]; exact hpre j hj)
            (by rw [Nat.zero_add]; exact hfail) hkn
        simp only [Nat.zero_add] at hres hev
        rw [exportWithFades_eq_multi_error h1' hres]
        have hnoerr : ∀ e ∈ prepEvent segments.length (totalDurationFades segments
              (options.getD ExportOptions.defaultValue).fade_duration) ::
              mkEvent "rendering" 0 segments.length (some 0) (some (totalDurationFades
                segments (options.getD ExportOptions.defaultValue).fade_duration)) none
                (some 0) :: evs₀,
            ¬(e.phase = "error") := by
          intro e he
          rcases List.mem_cons.mp he with h | h
          · subst h
            simp [prepEvent, mkEvent]
          · rcases List.mem_cons.mp h with h' | h'
            · subst h'
              simp [mkEvent]
            · rw [hph e h']
              simp
        have hshape : prepEvent segments.length (totalDurationFades segments
              (options.getD ExportOptions.defaultValue).fade_duration) ::
              mkEvent "rendering" 0 segments.length (some 0) (some (totalDurationFades
                segments (options.getD ExportOptions.defaultValue).fade_duration)) none
                (some 0) ::
              (segLoop env (totalDurationFades segments
                (options.getD ExportOptions.defaultValue).fade_duration) segments.length 50
                "FFmpeg segment encoding failed for segment " 0 0 segments).events =
            (prepEvent segments.length (totalDurationFades segments
              (options.getD ExportOptions.defaultValue).fade_duration) ::
              mkEvent "rendering" 0 segments.length (some 0) (some (totalDurationFades
                segments (options.getD ExportOptions.defaultValue).fade_duration)) none
                (some 0) :: evs₀) ++
            [errorEvent (k + 1) segments.length (totalDurationFades segments
              (options.getD ExportOptions.defaultValue).fade_duration)] := by
          rw [hev]
          rfl
        obtain ⟨hcount, hlast⟩ := one_error_last hnoerr
          (show (errorEvent (k + 1) segments.length (totalDurationFades segments
            (options.getD ExportOptions.defaultValue).fade_duration)).phase = "error"
            from rfl)
        rw [hshape]
        refine ⟨hcount, ⟨_, hlast, rfl, fun _ => rfl⟩, ⟨_, rfl, fun _ => ?_⟩, hlen, rfl⟩
        simp only [strContains, toList_append, List.append_assoc]
        exact containsSub_append_middle _ _ _
      · subst hkn
        obtain ⟨hres, hph, hlen⟩ :=
          segLoop_ok env (totalDurationFades segments
              (options.getD ExportOptions.defaultValue).fade_duration) segments.length 50
            "FFmpeg segment encoding failed for segment " segments 0 0
            (fun j hj => by rw [Nat.zero_add]; exact hpre j hj)
        rw [exportWithFades_eq_multi_ok h1' hres, if_neg (by simp [hfail])]
        have hnoerr : ∀ e ∈ prepEvent segments.length (totalDurationFades segments
              (options.getD ExportOptions.defaultValue).fade_duration) ::
              mkEvent "rendering" 0 segments.length (some 0) (some (totalDurationFades
                segments (options.getD ExportOptions.defaultValue).fade_duration)) none
                (some 0) ::
              ((segLoop env (totalDurationFades segments
                (options.getD ExportOptions.defaultValue).fade_duration) segments.length 50
                "FFmpeg segment encoding failed for segment " 0 0 segments).events ++
              (finalizingEvent segments.length (totalDurationFades segments
                (options.getD ExportOptions.defaultValue).fade_duration) 50 ::
              finalMonitorEvents (totalDurationFades segments
                (options.getD ExportOptions.defaultValue).fade_duration) segments.length
                (env segments.length).lines)),
            ¬(e.phase = "error") := by
          intro e he
          rcases List.mem_cons.mp he with h | h
          · subst h
            simp [prepEvent, mkEvent]
          · rcases List.mem_cons.mp h with h' | h'
            · subst h'
              simp [mkEvent]
            · rcases List.mem_append.mp h' with h'' | h''
              · rw [hph e h'']
                simp
              · rcases List.mem_cons.mp h'' with h3 | h3
                · subst h3
                  simp [finalizingEvent, mkEvent]
                · rw [(finalMonitorEvents_mem e h3).1]
                  simp
        have hshape : prepEvent segments.length (totalDurationFades segments
              (options.getD ExportOptions.defaultValue).fade_duration) ::
              mkEvent "rendering" 0 segments.length (some 0) (some (totalDurationFades
                segments (options.getD ExportOptions.defaultValue).fade_duration)) none
                (some 0) ::
              ((segLoop env (totalDurationFades segments
                (options.getD ExportOptions.defaultValue).fade_duration) segments.length 50
                "FFmpeg segment encoding failed for segment " 0 0 segments).events ++
              (finalizingEvent segments.length (totalDurationFades segments
                (options.getD ExportOptions.defaultValue).fade_duration) 50 ::
              (finalMonitorEvents (totalDurationFades segments
                (options.getD ExportOptions.defaultValue).fade_duration) segments.length
                (env segments.length).lines ++
              [errorEvent segments.length segments.length (totalDurationFades segments
                (options.getD ExportOptions.defaultValue).fade_duration)]))) =
            (prepEvent segments.length (totalDurationFades segments
              (options.getD ExportOptions.defaultValue).fade_duration) ::
              mkEvent "rendering" 0 segments.length (some 0) (some (totalDurationFades
                segments (options.getD ExportOptions.defaultValue).fade_duration)) none
                (some 0) ::
              ((segLoop env (totalDurationFades segments
                (options.getD ExportOptions.defaultValue).fade_duration) segments.length 50
                "FFmpeg segment encoding failed for segment " 0 0 segments).events ++
              (finalizingEvent segments.length (totalDurationFades segments
                (options.getD ExportOptions.defaultValue).fade_duration) 50 ::
              finalMonitorEvents (totalDurationFades segments
                (options.getD ExportOptions.defaultValue).fade_duration) segments.length
                (env segments.length).lines))) ++
            [errorEvent segments.length segments.length (totalDurationFades segments
              (options.getD ExportOptions.defaultValue).fade_duration)] := by
          simp
        obtain ⟨hcount, hlast⟩ := one_error_last hnoerr
          (show (errorEvent segments.length segments.length (totalDurationFades segments
            (options.getD ExportOptions.defaultValue).fade_duration)).phase = "error"
            from rfl)
        rw [hshape]
        refine ⟨hcount, ⟨_, hlast, rfl, fun hG => absurd hG.1 (lt_irrefl _)⟩,
          ⟨_, rfl, fun hG => absurd hG.1 (lt_irrefl _)⟩, ?_, rfl⟩
        rw [List.length_append, hlen]
        rfl
  · rw [if_neg hf]
    have hplan : plannedInvocations segments (options.getD ExportOptions.defaultValue)
        = segments.length + 1 := by
      simp [plannedInvocations, hf]
    rw [hplan] at hk
    rcases Nat.lt_succ_iff_lt_or_eq.mp hk with hkn | hkn
    · obtain ⟨hres, ⟨evs₀, hev, hph⟩, hlen⟩ :=
        segLoop_fail env (totalDurationFast segments) segments.length 100
          "FFmpeg segment extraction failed for segment " segments 0 0 k
          (fun j hj => by rw [Nat.zero_add]; exact hpre j hj)
          (by rw [Nat.zero_add]; exact hfail) hkn
      simp only [Nat.zero_add] at hres hev
      rw [exportFast_eq_error hres]
      have hnoerr : ∀ e ∈ prepEvent segments.length (totalDurationFast segments) :: evs₀,
          ¬(e.phase = "error") := by
        intro e he
        rcases List.mem_cons.mp he with h | h
        · subst h
          simp [prepEvent, mkEvent]
        · rw [hph e h]
          simp
      have hshape : prepEvent segments.length (totalDurationFast segments) ::
            (segLoop env (totalDurationFast segments) segments.length 100
              "FFmpeg segment extraction failed for segment " 0 0 segments).events =
          (prepEvent segments.length (totalDurationFast segments) :: evs₀) ++
            [errorEvent (k + 1) segments.length (totalDurationFast segments)] := by
        rw [hev]
        rfl
      obtain ⟨hcount, hlast⟩ := one_error_last hnoerr
        (show (errorEvent (k + 1) segments.length
          (totalDurationFast segments)).phase = "error" from rfl)
      rw [hshape]
      refine ⟨hcount, ⟨_, hlast, rfl, fun _ => rfl⟩, ⟨_, rfl, fun _ => ?_⟩, hlen, rfl⟩
      simp only [strContains, toList_append, List.append_assoc]
      exact containsSub_append_middle _ _ _
    · subst hkn
      obtain ⟨hres, hph, hlen⟩ :=
        segLoop_ok env (totalDurationFast segments) segments.length 100
          "FFmpeg segment extraction failed for segment " segments 0 0
          (fun j hj => by rw [Nat.zero_add]; exact hpre j hj)
      rw [exportFast_eq_ok hres, if_neg (by simp [hfail])]
      have hnoerr : ∀ e ∈ prepEvent segments.length (totalDurationFast segments) ::
            ((segLoop env (totalDurationFast segments) segments.length 100
              "FFmpeg segment extraction failed for segment " 0 0 segments).events ++
            [finalizingEvent segments.length (totalDurationFast segments) 95]),
          ¬(e.phase = "error") := by
        intro e he
        rcases List.mem_cons.mp he with h | h
        · subst h
          simp [prepEvent, mkEvent]
        · rcases List.mem_append.mp h with h' | h'
          · rw [hph e h']
            simp
          · rcases List.mem_singleton.mp h' with h''
            subst h''
            simp [finalizingEvent, mkEvent]
      have hshape : prepEvent segments.length (totalDurationFast segments) ::
            (segLoop env (totalDurationFast segments) segments.length 100
              "FFmpeg segment extraction failed for segment " 0 0 segments).events ++
            [finalizingEvent segments.length (totalDurationFast segments) 95,
              errorEvent segments.length segments.length (totalDurationFast segments)] =
          (prepEvent segments.length (totalDurationFast segments) ::
            ((segLoop env (totalDurationFast segments) segments.length 100
              "FFmpeg segment extraction failed for segment " 0 0 segments).events ++
            [finalizingEvent segments.length (totalDurationFast segments) 95])) ++
          [errorEvent segments.length segments.length (totalDurationFast segments)] := by
        simp
      obtain ⟨hcount, hlast⟩ := one_error_last hnoerr
        (show (errorEvent segments.length segments.length
          (totalDurationFast segments)).phase = "error" from rfl)
      rw [hshape]
      refine ⟨hcount, ⟨_, hlast, rfl, fun hG => absurd hG.1 (lt_irrefl _)⟩,
        ⟨_, rfl, fun hG => absurd hG.1 (lt_irrefl _)⟩, ?_, rfl⟩
      rw [List.length_append, hlen]
      rfl

/-- Witness for `first_failure_aborts`: a one-segment fast-mode job whose very
first invocation fails. -/
theorem first_failure_aborts_witness :
    ([⟨"a.mp4", 0, 1, none, none, none⟩] : List ExportSegment) ≠ []
    ∧ 0 < plannedInvocations [⟨"a.mp4", 0, 1, none, none, none⟩]
        ((none : Option ExportOptions).getD ExportOptions.defaultValue)
    ∧ (((export_video [⟨"a.mp4", 0, 1, none, none, none⟩] "o.mp4" none
          (fun _ => ⟨false, "ohno", []⟩)).events.filter
          (fun e => e.phase == "error")).length = 1
      ∧ (∃ ev, (export_video [⟨"a.mp4", 0, 1, none, none, none⟩] "o.mp4" none
            (fun _ => ⟨false, "ohno", []⟩)).events.getLast? = some ev
          ∧ ev.phase = "error"
          ∧ ((0 < ([⟨"a.mp4", 0, 1, none, none, none⟩] : List ExportSegment).length
                ∧ plannedInvocations [⟨"a.mp4", 0, 1, none, none, none⟩]
                  ((none : Option ExportOptions).getD ExportOptions.defaultValue) =
                  ([⟨"a.mp4", 0, 1, none, none, none⟩] : List ExportSegment).length + 1) →
              ev.currentSegment = 0 + 1))
      ∧ (∃ msg, (export_video [⟨"a.mp4", 0, 1, none, none, none⟩] "o.mp4" none
            (fun _ => ⟨false, "ohno", []⟩)).result = Except.error msg
          ∧ ((0 < ([⟨"a.mp4", 0, 1, none, none, none⟩] : List ExportSegment).length
                ∧ plannedInvocations [⟨"a.mp4", 0, 1, none, none, none⟩]
                  ((none : Option ExportOptions).getD ExportOptions.defaultValue) =
                  ([⟨"a.mp4", 0, 1, none, none, none⟩] : List ExportSegment).length + 1) →
              strContains msg (toString 0) = true))
      ∧ (export_video [⟨"a.mp4", 0, 1, none, none, none⟩] "o.mp4" none
          (fun _ => ⟨false, "ohno", []⟩)).invocations.length = 0 + 1
      ∧ (export_video [⟨"a.mp4", 0, 1, none, none, none⟩] "o.mp4" none
          (fun _ => ⟨false, "ohno", []⟩)).scratchPresent = false) :=
  ⟨by simp, by decide,
    first_failure_aborts [⟨"a.mp4", 0, 1, none, none, none⟩] "o.mp4" none
      (fun _ => ⟨false, "ohno", []⟩) 0 (by simp) (by decide)
      (fun j hj => absurd hj (by omega)) (by decide)⟩

theorem percentsOf_cons_some {e : ProgressEvent} {l : List ProgressEvent} {q : ℚ}
    (h : e.percent = some q) : percentsOf (e :: l) = q :: percentsOf l := by
  simp only [percentsOf, List.filterMap_cons, h]

theorem percentsOf_cons_none {e : ProgressEvent} {l : List ProgressEvent}
    (h : e.percent = none) : percentsOf (e :: l) = percentsOf l := by
  simp only [percentsOf, List.filterMap_cons, h]

theorem percentsOf_append (l1 l2 : List ProgressEvent) :
    percentsOf (l1 ++ l2) = percentsOf l1 ++ percentsOf l2 :=
  List.filterMap_append l1 l2 _

theorem chain'_cons_of_bounds {c : ℚ} {l : List ℚ} (hb : ∀ p ∈ l, c ≤ p)
    (hc : List.Chain' (· ≤ ·) l) : List.Chain' (· ≤ ·) (c :: l) :=
  List.chain'_cons'.mpr ⟨fun y hy => hb y (List.mem_of_mem_head? hy), hc⟩

theorem chain'_append_of_bounds {c : ℚ} {l1 l2 : List ℚ} (h1 : ∀ p ∈ l1, p ≤ c)
    (h2 : ∀ p ∈ l2, c ≤ p) (hc1 : List.Chain' (· ≤ ·) l1)
    (hc2 : List.Chain' (· ≤ ·) l2) : List.Chain' (· ≤ ·) (l1 ++ l2) :=
  List.Chain'.append hc1 hc2 (fun x hx y hy =>
    le_trans (h1 x (List.mem_of_mem_getLast? hx)) (h2 y (List.mem_of_mem_head? hy)))

theorem segLoop_ok_phases (env : Nat → ExtProc) (total : ℚ) (n : Nat) (scale : ℚ)
    (msg : String) (segs : List ExportSegment) : ∀ (i : Nat) (acc : ℚ) (q : ℚ),
    (segLoop env total n scale msg i acc segs).res = Except.ok q →
    ∀ e ∈ (segLoop env total n scale msg i acc segs).events, e.phase = "rendering" := by
  induction segs with
  | nil =>
    intro i acc q _ e he
    simp [segLoop] at he
  | cons s rest ih =>
    intro i acc q hq e he
    by_cases hs : (env i).success = true
    · rw [segLoop_cons_pos hs] at hq he
      rcases List.mem_cons.mp he with h | h
      · subst h; rfl
      · exact ih (i + 1) (acc + segDuration s) q hq e h
    · rw [segLoop_cons_neg hs] at hq
      cases hq

theorem segLoop_error_split (env : Nat → ExtProc) (total : ℚ) (n : Nat) (scale : ℚ)
    (msg : String) (segs : List ExportSegment) : ∀ (i : Nat) (acc : ℚ) (e : String),
    (segLoop env total n scale msg i acc segs).res = Except.error e →
    ∃ evs₀ cur, (segLoop env total n scale msg i acc segs).events =
        evs₀ ++ [errorEvent cur n total]
      ∧ ∀ ev ∈ evs₀, ev.phase = "rendering" := by
  induction segs with
  | nil =>
    intro i acc e he
    cases he
  | cons s rest ih =>
    intro i acc e he
    by_cases hs : (env i).success = true
    · rw [segLoop_cons_pos hs] at he ⊢
      obtain ⟨evs₀, cur, hev, hph⟩ := ih (i + 1) (acc + segDuration s) e he
      refine ⟨mkEvent "rendering" (i + 1) n (some acc) (some total) none
        (some (acc / total * scale)) :: evs₀, cur, ?_, ?_⟩
      · rw [hev]
        rfl
      · intro ev hev'
        rcases List.mem_cons.mp hev' with h | h
        · subst h; rfl
        · exact hph ev h
    · rw [segLoop_cons_neg hs]
      refine ⟨[mkEvent "rendering" (i + 1) n (some acc) (some total) none
        (some (acc / total * scale))], i + 1, rfl, ?_⟩
      intro ev hev'
      rcases List.mem_singleton.mp hev' with h
      subst h; rfl

theorem segLoop_percents (env : Nat → ExtProc) (total : ℚ) (n : Nat) (scale : ℚ)
    (msg : String) (htot : 0 < total) (hscale : 0 < scale) :
    ∀ (segs : List ExportSegment) (i : Nat) (acc : ℚ),
    (∀ s ∈ segs, 0 < segDuration s) → 0 ≤ acc →
    List.Chain' (· ≤ ·) (percentsOf (segLoop env total n scale msg i acc segs).events)
    ∧ ∀ p ∈ percentsOf (segLoop env total n scale msg i acc segs).events,
        acc / total * scale ≤ p
        ∧ p ≤ (acc + (segs.map segDuration).dropLast.sum) / total * scale := by
  intro segs
  induction segs with
  | nil =>
    intro i acc _ _
    exact ⟨List.chain'_nil, fun p hp => by simp [segLoop, percentsOf] at hp⟩
  | cons s rest ih =>
    intro i acc hdur hacc
    have hd : 0 < segDuration s := hdur s (List.mem_cons_self s rest)
    by_cases hs : (env i).success = true
    · rw [segLoop_cons_pos hs]
      obtain ⟨ihc, ihb⟩ := ih (i + 1) (acc + segDuration s)
        (fun x hx => hdur x (List.mem_cons_of_mem s hx)) (by linarith)
      rw [percentsOf_cons_some (show (mkEvent "rendering" (i + 1) n (some acc) (some total)
        none (some (acc / total * scale))).percent = some (acc / total * scale) from rfl)]
      have hmono : acc / total * scale ≤ (acc + segDuration s) / total * scale := by
        gcongr
        linarith
      constructor
      · refine chain'_cons_of_bounds (fun p hp => ?_) ihc
        exact le_trans hmono (ihb p hp).1
      · intro p hp
        rcases List.mem_cons.mp hp with h | h
        · subst h
          have h0 : 0 ≤ ((s :: rest).map segDuration).dropLast.sum := by
            refine List.sum_nonneg ?_
            intro x hx
            obtain ⟨y, hy, hxy⟩ := List.mem_map.mp (List.mem_of_mem_dropLast hx)
            have := hdur y hy
            subst hxy
            linarith
          refine ⟨le_refl _, ?_⟩
          gcongr
          linarith
        · obtain ⟨hlo, hhi⟩ := ihb p h
          refine ⟨le_trans hmono hlo, le_trans hhi ?_⟩
          have hrne : rest ≠ [] := by
            intro hr
            rw [hr] at h
            simp [segLoop, percentsOf] at h
          have hmne : rest.map segDuration ≠ [] := by
            simpa [List.map_eq_nil_iff] using hrne
          have hshape : ((s :: rest).map segDuration).dropLast.sum =
              segDuration s + ((rest.map segDuration).dropLast).sum := by
            rw [List.map_cons, List.dropLast_cons_of_ne_nil hmne, List.sum_cons]
          exact le_of_eq (by rw [hshape]; ring)
    · rw [segLoop_cons_neg hs]
      rw [percentsOf_cons_some (show (mkEvent "rendering" (i + 1) n (some acc) (some total)
        none (some (acc / total * scale))).percent = some (acc / total * scale) from rfl),
        percentsOf_cons_none (show (errorEvent (i + 1) n total).percent = none from rfl)]
      refine ⟨by simp [percentsOf, List.chain'_singleton], ?_⟩
      intro p hp
      have hp' : p = acc / total * scale := by
        simpa [percentsOf] using hp
      subst hp'
      have h0 : 0 ≤ ((s :: rest).map segDuration).dropLast.sum := by
        refine List.sum_nonneg ?_
        intro x hx
        obtain ⟨y, hy, hxy⟩ := List.mem_map.mp (List.mem_of_mem_dropLast hx)
        have := hdur y hy
        subst hxy
        linarith
      refine ⟨le_refl _, ?_⟩
      gcongr
      linarith

theorem percentsOf_monitorEvents (total : ℚ) (cur n : Nat) : ∀ lines : List String,
    percentsOf (monitorEvents total cur n lines) =
      (parsedTimes lines).map (fun t => min (t / total * 100) 99) := by
  intro lines
  induction lines with
  | nil => rfl
  | cons l rest ih =>
    rcases hp : parse_ffmpeg_progress l with _ | p
    · have e1 : monitorEvents total cur n (l :: rest) = monitorEvents total cur n rest := by
        simp only [monitorEvents, List.filterMap_cons, hp, Option.map_none']
      have e2 : parsedTimes (l :: rest) = parsedTimes rest := by
        simp only [parsedTimes, List.filterMap_cons, hp, Option.map_none']
      rw [e1, e2, ih]
    · have e1 : monitorEvents total cur n (l :: rest) =
          mkEvent "rendering" cur n (some p.1) (some total) p.2
            (some (min (p.1 / total * 100) 99)) :: monitorEvents total cur n rest := by
        simp only [monitorEvents, List.filterMap_cons, hp, Option.map_some']
      have e2 : parsedTimes (l :: rest) = p.1 :: parsedTimes rest := by
        simp only [parsedTimes, List.filterMap_cons, hp, Option.map_some']
      rw [e1, e2, List.map_cons,
        percentsOf_cons_some (show (mkEvent "rendering" cur n (some p.1) (some total) p.2
          (some (min (p.1 / total * 100) 99))).percent =
          some (min (p.1 / total * 100) 99) from rfl), ih]

theorem percentsOf_finalMonitorEvents (total : ℚ) (n : Nat) : ∀ lines : List String,
    percentsOf (finalMonitorEvents total n lines) =
      (parsedTimes lines).map (fun t => min (50 + t / total * 50) 99) := by
  intro lines
  induction lines with
  | nil => rfl
  | cons l rest ih =>
    rcases hp : parse_ffmpeg_progress l with _ | p
    · have e1 : finalMonitorEvents total n (l :: rest) = finalMonitorEvents total n rest := by
        simp only [finalMonitorEvents, List.filterMap_cons, hp, Option.map_none']
      have e2 : parsedTimes (l :: rest) = parsedTimes rest := by
        simp only [parsedTimes, List.filterMap_cons, hp, Option.map_none']
      rw [e1, e2, ih]
    · have e1 : finalMonitorEvents total n (l :: rest) =
          mkEvent "finalizing" n n (some p.1) (some total) p.2
            (some (min (50 + p.1 / total * 50) 99)) :: finalMonitorEvents total n rest := by
        simp only [finalMonitorEvents, List.filterMap_cons, hp, Option.map_some']
      have e2 : parsedTimes (l :: rest) = p.1 :: parsedTimes rest := by
        simp only [parsedTimes, List.filterMap_cons, hp, Option.map_some']
      rw [e1, e2, List.map_cons,
        percentsOf_cons_some (show (mkEvent "finalizing" n n (some p.1) (some total) p.2
          (some (min (50 + p.1 / total * 50) 99))).percent =
          some (min (50 + p.1 / total * 50) 99) from rfl), ih]

theorem sum_dropLast {l : List ℚ} (h : l ≠ []) :
    l.dropLast.sum = l.sum - (l.getLast?.getD 0) := by
  have hs : l.sum = l.dropLast.sum + l.getLast h := by
    conv_lhs => rw [← List.dropLast_append_getLast h]
    rw [List.sum_append, List.sum_singleton]
  rw [hs, List.getLast?_eq_getLast l h, Option.getD_some]
  ring

theorem chain_map_g1 {total : ℚ} (htot : 0 < total) {ts : List ℚ}
    (hch : List.Chain' (· ≤ ·) ts) :
    List.Chain' (· ≤ ·) (ts.map (fun t => min (t / total * 100) 99)) := by
  rw [List.chain'_map]
  refine hch.imp ?_
  intro x y hxy
  refine min_le_min ?_ le_rfl
  gcongr

theorem chain_map_g2 {total : ℚ} (htot : 0 < total) {ts : List ℚ}
    (hch : List.Chain' (· ≤ ·) ts) :
    List.Chain' (· ≤ ·) (ts.map (fun t => min (50 + t / total * 50) 99)) := by
  rw [List.chain'_map]
  refine hch.imp ?_
  intro x y hxy
  refine min_le_min ?_ le_rfl
  gcongr

theorem bounds_map_g1 {total : ℚ} (htot : 0 < total) {ts : List ℚ}
    (hts : ∀ t ∈ ts, 0 ≤ t) :
    ∀ q ∈ ts.map (fun t => min (t / total * 100) 99), 0 ≤ q ∧ q ≤ 99 := by
  intro q hq
  obtain ⟨t, ht, rfl⟩ := List.mem_map.mp hq
  refine ⟨le_min ?_ (by norm_num), min_le_right _ _⟩
  have := hts t ht
  positivity

theorem bounds_map_g2 {total : ℚ} (htot : 0 < total) {ts : List ℚ}
    (hts : ∀ t ∈ ts, 0 ≤ t) :
    ∀ q ∈ ts.map (fun t => min (50 + t / total * 50) 99), 50 ≤ q ∧ q ≤ 99 := by
  intro q hq
  obtain ⟨t, ht, rfl⟩ := List.mem_map.mp hq
  refine ⟨le_min ?_ (by norm_num), min_le_right _ _⟩
  have h0 : 0 ≤ t / total * 50 := by
    have := hts t ht
    positivity
  linarith

/-- C4 counterexample: a fast-mode job with segment durations `[99, 1]` whose
invocations all succeed emits the percent sequence `[0, 0, 99, 95, 100]` — the
rendering phase reaches 99% before the fixed 95% finalizing checkpoint, so the
percent values of successive events are not non-decreasing. -/
theorem percent_not_monotone :
    percentsOf (export_video [⟨"a", 0, 99, none, none, none⟩, ⟨"b", 0, 1, none, none, none⟩]
        "out.mp4" none (fun _ => ⟨true, "", []⟩)).events = [0, 0, 99, 95, 100]
    ∧ ¬List.Chain' (· ≤ ·)
        (percentsOf (export_video [⟨"a", 0, 99, none, none, none⟩,
          ⟨"b", 0, 1, none, none, none⟩] "out.mp4" none (fun _ => ⟨true, "", []⟩)).events) := by
  have h : percentsOf (export_video [⟨"a", 0, 99, none, none, none⟩,
      ⟨"b", 0, 1, none, none, none⟩] "out.mp4" none (fun _ => ⟨true, "", []⟩)).events =
      [0, 0, 99, 95, 100] := by
    rw [export_video_nonempty (by simp), if_neg (by decide)]
    norm_num [exportFast, segLoop, totalDurationFast, segDuration, prepEvent,
      completeEvent, finalizingEvent, mkEvent, percentsOf, List.filterMap_cons]
  refine ⟨h, ?_⟩
  rw [h]
  norm_num [List.chain'_cons, List.chain'_singleton]

/-- C4 amended: emitted percent values are non-decreasing within a job provided
every segment duration is positive, the encoder-reported progress times of each
monitored invocation are non-negative and non-decreasing, in fast mode the last
segment is at least 5% of the total (otherwise the rendering percent can exceed
the fixed 95% finalizing checkpoint), and in multi-segment transition mode the
computed total is positive and the last segment's duration is at least
`fadeDuration × (n − 1)` (otherwise the rendering percent can exceed the fixed
50% checkpoint); and, unconditionally in these runs, once an `error` event is
emitted it is the final event of the job. -/
theorem percent_monotone_and_error_terminal (segments : List ExportSegment)
    (outputPath : String) (options : Option ExportOptions) (env : Nat → ExtProc)
    (hdur : ∀ s ∈ segments, 0 < segDuration s)
    (hlines : ∀ i : Nat, (∀ t ∈ parsedTimes (env i).lines, 0 ≤ t)
      ∧ List.Chain' (· ≤ ·) (parsedTimes (env i).lines))
    (hfast : use_fades (options.getD ExportOptions.defaultValue) = false →
      totalDurationFast segments ≤ 20 * lastDuration segments)
    (hfade : use_fades (options.getD ExportOptions.defaultValue) = true →
      2 ≤ segments.length →
      0 < totalDurationFades segments (options.getD ExportOptions.defaultValue).fade_duration
      ∧ (options.getD ExportOptions.defaultValue).fade_duration *
          ((segments.length : ℚ) - 1) ≤ lastDuration segments) :
    List.Chain' (· ≤ ·) (percentsOf (export_video segments outputPath options env).events)
    ∧ ∀ e ∈ (export_video segments outputPath options env).events.dropLast,
        ¬(e.phase = "error") := by
  by_cases hemp : segments = []
  · subst hemp
    exact ⟨List.chain'_nil, by simp [export_video]⟩
  have hmne : segments.map segDuration ≠ [] := by
    simpa [List.map_eq_nil_iff] using hemp
  rw [export_video_nonempty hemp]
  by_cases hf : use_fades (options.getD ExportOptions.defaultValue) = true
  · rw [if_pos hf]
    by_cases h1 : segments.length = 1
    · -- single-segment transition mode
      have hc0 : ((segments.length - 1 : ℕ) : ℚ) = 0 := by
        rw [h1]
        rfl
      have htot : 0 < totalDurationFades segments
          (options.getD ExportOptions.defaultValue).fade_duration := by
        rw [totalDurationFades, hc0, mul_zero, sub_zero]
        refine List.sum_pos _ ?_ hmne
        intro x hx
        obtain ⟨y, hy, hxy⟩ := List.mem_map.mp hx
        rw [← hxy]
        exact hdur y hy
      obtain ⟨hts0, htsc0⟩ := hlines 0
      have hmb := bounds_map_g1 htot hts0
      have hmc := chain_map_g1 htot htsc0
      rw [exportWithFades_eq_single h1]
      by_cases hs : (env 0).success = true
      · rw [if_pos hs]
        dsimp only
        constructor
        · simp only [List.cons_append]
          rw [percentsOf_cons_some (show (prepEvent segments.length (totalDurationFades
              segments (options.getD ExportOptions.defaultValue).fade_duration)).percent =
              some 0 from rfl),
            percentsOf_cons_some (show (mkEvent "rendering" 1 1 (some 0)
              (some (totalDurationFades segments
                (options.getD ExportOptions.defaultValue).fade_duration)) none
              (some 0)).percent = some 0 from rfl),
            percentsOf_append, percentsOf_monitorEvents]
          have hcomp : percentsOf [completeEvent 1 (totalDurationFades segments
              (options.getD ExportOptions.defaultValue).fade_duration)] = [100] := rfl
          rw [hcomp]
          have hbds : ∀ p ∈ (parsedTimes (env 0).lines).map
              (fun t => min (t / (totalDurationFades segments
                (options.getD ExportOptions.defaultValue).fade_duration) * 100) 99) ++
              [(100 : ℚ)], 0 ≤ p := by
            intro p hp
            rcases List.mem_append.mp hp with h | h
            · exact (hmb p h).1
            · rcases List.mem_singleton.mp h with h'
              subst h'
              norm_num
          refine chain'_cons_of_bounds (fun p hp => ?_) (chain'_cons_of_bounds hbds ?_)
          · rcases List.mem_cons.mp hp with h | h
            · subst h
              norm_num
            · exact hbds p h
          · refine chain'_append_of_bounds (c := 99) (fun p hp => (hmb p hp).2)
              (fun p hp => ?_) hmc (List.chain'_singleton _)
            rcases List.mem_singleton.mp hp with h'
            subst h'
            norm_num
        · intro e he
          have hshape : prepEvent segments.length (totalDurationFades segments
                (options.getD ExportOptions.defaultValue).fade_duration) ::
              mkEvent "rendering" 1 1 (some 0) (some (totalDurationFades segments
                (options.getD ExportOptions.defaultValue).fade_duration)) none (some 0) ::
              monitorEvents (totalDurationFades segments
                (options.getD ExportOptions.defaultValue).fade_duration) 1 1
                (env 0).lines ++
              [completeEvent 1 (totalDurationFades segments
                (options.getD ExportOptions.defaultValue).fade_duration)] =
              (prepEvent segments.length (totalDurationFades segments
                (options.getD ExportOptions.defaultValue).fade_duration) ::
              mkEvent "rendering" 1 1 (some 0) (some (totalDurationFades segments
                (options.getD ExportOptions.defaultValue).fade_duration)) none (some 0) ::
              monitorEvents (totalDurationFades segments
                (options.getD ExportOptions.defaultValue).fade_duration) 1 1
                (env 0).lines) ++
              [completeEvent 1 (totalDurationFades segments
                (options.getD ExportOptions.defaultValue).fade_duration)] := by
            simp
          rw [hshape, List.dropLast_concat] at he
          rcases List.mem_cons.mp he with h | h
          · subst h
            simp [prepEvent, mkEvent]
          · rcases List.mem_cons.mp h with h' | h'
            · subst h'
              simp [mkEvent]
            · rw [(monitorEvents_mem e h').1]
              simp
      · rw [if_neg hs]
        dsimp only
        constructor
        · simp only [List.cons_append]
          rw [percentsOf_cons_some (show (prepEvent segments.length (totalDurationFades
              segments (options.getD ExportOptions.defaultValue).fade_duration)).percent =
              some 0 from rfl),
            percentsOf_cons_some (show (mkEvent "rendering" 1 1 (some 0)
              (some (totalDurationFades segments
                (options.getD ExportOptions.defaultValue).fade_duration)) none
              (some 0)).percent = some 0 from rfl),
            percentsOf_append, percentsOf_monitorEvents]
          have herr : percentsOf [errorEvent 1 1 (totalDurationFades segments
              (options.getD ExportOptions.defaultValue).fade_duration)] = [] := rfl
          rw [herr, List.append_nil]
          have hbds : ∀ p ∈ (parsedTimes (env 0).lines).map
              (fun t => min (t / (totalDurationFades segments
                (options.getD ExportOptions.defaultValue).fade_duration) * 100) 99),
              0 ≤ p := fun p hp => (hmb p hp).1
          exact chain'_cons_of_bounds (fun p hp => by
              rcases List.mem_cons.mp hp with h | h
              · subst h; norm_num
              · exact hbds p h)
            (chain'_cons_of_bounds hbds hmc)
        · intro e he
          have hshape : prepEvent segments.length (totalDurationFades segments
                (options.getD ExportOptions.defaultValue).fade_duration) ::
              mkEvent "rendering" 1 1 (some 0) (some (totalDurationFades segments
                (options.getD ExportOptions.defaultValue).fade_duration)) none (some 0) ::
              monitorEvents (totalDurationFades segments
                (options.getD ExportOptions.defaultValue).fade_duration) 1 1
                (env 0).lines ++
              [errorEvent 1 1 (totalDurationFades segments
                (options.getD ExportOptions.defaultValue).fade_duration)] =
              (prepEvent segments.length (totalDurationFades segments
                (options.getD ExportOptions.defaultValue).fade_duration) ::
              mkEvent "rendering" 1 1 (some 0) (some (totalDurationFades segments
                (options.getD ExportOptions.defaultValue).fade_duration)) none (some 0) ::
              monitorEvents (totalDurationFades segments
                (options.getD ExportOptions.defaultValue).fade_duration) 1 1
                (env 0).lines) ++
              [errorEvent 1 1 (totalDurationFades segments
                (options.getD ExportOptions.defaultValue).fade_duration)] := by
            simp
          rw [hshape, List.dropLast_concat] at he
          rcases List.mem_cons.mp he with h | h
          · subst h
            simp [prepEvent, mkEvent]
          · rcases List.mem_cons.mp h with h' | h'
            · subst h'
              simp [mkEvent]
            · rw [(monitorEvents_mem e h').1]
              simp
    · -- multi-segment transition mode
      have h1' : (segments.length == 1) = false := by simpa using h1
      have hn2 : 2 ≤ segments.length := by
        have := List.length_pos.mpr hemp
        omega
      obtain ⟨htot, hlastc⟩ := hfade hf hn2
      have hcast : totalDurationFades segments
          (options.getD ExportOptions.defaultValue).fade_duration =
          (segments.map segDuration).sum -
            (options.getD ExportOptions.defaultValue).fade_duration *
              ((segments.length : ℚ) - 1) := by
        rw [totalDurationFades, Nat.cast_sub (by omega), Nat.cast_one]
      obtain ⟨lchain, lbound⟩ := segLoop_percents env (totalDurationFades segments
          (options.getD ExportOptions.defaultValue).fade_duration) segments.length 50
        "FFmpeg segment encoding failed for segment " htot (by norm_num)
        segments 0 0 hdur le_rfl
      have hdrop : (segments.map segDuration).dropLast.sum =
          (segments.map segDuration).sum - lastDuration segments := sum_dropLast hmne
      have hge0 : ∀ p ∈ percentsOf (segLoop env (totalDurationFades segments
          (options.getD ExportOptions.defaultValue).fade_duration) segments.length 50
          "FFmpeg segment encoding failed for segment " 0 0 segments).events, 0 ≤ p := by
        intro p hp
        have := (lbound p hp).1
        simpa using this
      have h50 : ∀ p ∈ percentsOf (segLoop env (totalDurationFades segments
          (options.getD ExportOptions.defaultValue).fade_duration) segments.length 50
          "FFmpeg segment encoding failed for segment " 0 0 segments).events, p ≤ 50 := by
        intro p hp
        have hhi := (lbound p hp).2
        have harith : (0 + (segments.map segDuration).dropLast.sum) /
            totalDurationFades segments
              (options.getD ExportOptions.defaultValue).fade_duration * 50 ≤ 50 := by
          rw [zero_add, hdrop, div_mul_eq_mul_div, div_le_iff htot]
          rw [hcast] at htot ⊢
          nlinarith [htot, hlastc]
        linarith
      rcases hres : (segLoop env (totalDurationFades segments
          (options.getD ExportOptions.defaultValue).fade_duration) segments.length 50
          "FFmpeg segment encoding failed for segment " 0 0 segments).res with e | q
      · rw [exportWithFades_eq_multi_error h1' hres]
        dsimp only
        constructor
        · rw [percentsOf_cons_some (show (prepEvent segments.length (totalDurationFades
              segments (options.getD ExportOptions.defaultValue).fade_duration)).percent =
              some 0 from rfl),
            percentsOf_cons_some (show (mkEvent "rendering" 0 segments.length (some 0)
              (some (totalDurationFades segments
                (options.getD ExportOptions.defaultValue).fade_duration)) none
              (some 0)).percent = some 0 from rfl)]
          exact chain'_cons_of_bounds (fun p hp => by
              rcases List.mem_cons.mp hp with h | h
              · subst h; norm_num
              · exact hge0 p h)
            (chain'_cons_of_bounds hge0 lchain)
        · intro e' he
          obtain ⟨evs₀, cur, hev, hph⟩ := segLoop_error_split env _ _ _ _ segments 0 0 e hres
          rw [hev] at he
          have hshape : prepEvent segments.length (totalDurationFades segments
                (options.getD ExportOptions.defaultValue).fade_duration) ::
              mkEvent "rendering" 0 segments.length (some 0) (some (totalDurationFades
                segments (options.getD ExportOptions.defaultValue).fade_duration)) none
                (some 0) ::
              (evs₀ ++ [errorEvent cur segments.length (totalDurationFades segments
                (options.getD ExportOptions.defaultValue).fade_duration)]) =
              (prepEvent segments.length (totalDurationFades segments
                (options.getD ExportOptions.defaultValue).fade_duration) ::
              mkEvent "rendering" 0 segments.length (some 0) (some (totalDurationFades
                segments (options.getD ExportOptions.defaultValue).fade_duration)) none
                (some 0) :: evs₀) ++
              [errorEvent cur segments.length (totalDurationFades segments
                (options.getD ExportOptions.defaultValue).fade_duration)] := rfl
          rw [hshape, List.dropLast_concat] at he
          rcases List.mem_cons.mp he with h | h
          · subst h
            simp [prepEvent, mkEvent]
          · rcases List.mem_cons.mp h with h' | h'
            · subst h'
              simp [mkEvent]
            · rw [hph e' h']
              simp
      · have hphases := segLoop_ok_phases env _ _ _ _ segments 0 0 q hres
        obtain ⟨htsn, htscn⟩ := hlines segments.length
        have hmb := bounds_map_g2 htot htsn
        have hmc := chain_map_g2 htot htscn
        rw [exportWithFades_eq_multi_ok h1' hres]
        by_cases hs : (env segments.length).success = true
        · rw [if_pos hs]
          dsimp only
          constructor
          · rw [percentsOf_cons_some (show (prepEvent segments.length (totalDurationFades
                segments (options.getD ExportOptions.defaultValue).fade_duration)).percent =
                some 0 from rfl),
              percentsOf_cons_some (show (mkEvent "rendering" 0 segments.length (some 0)
                (some (totalDurationFades segments
                  (options.getD ExportOptions.defaultValue).fade_duration)) none
                (some 0)).percent = some 0 from rfl),
              percentsOf_append,
              percentsOf_cons_some (show (finalizingEvent segments.length
                (totalDurationFades segments
                  (options.getD ExportOptions.defaultValue).fade_duration) 50).percent =
                some 50 from rfl),
              percentsOf_append, percentsOf_finalMonitorEvents]
            have hcomp : percentsOf [completeEvent segments.length (totalDurationFades
                segments (options.getD ExportOptions.defaultValue).fade_duration)] =
                [100] := rfl
            rw [hcomp]
            have htail : ∀ p ∈ (50 : ℚ) :: ((parsedTimes (env segments.length).lines).map
                (fun t => min (50 + t / (totalDurationFades segments
                  (options.getD ExportOptions.defaultValue).fade_duration) * 50) 99) ++
                [(100 : ℚ)]), 50 ≤ p := by
              intro p hp
              rcases List.mem_cons.mp hp with h | h
              · subst h; norm_num
              · rcases List.mem_append.mp h with h' | h'
                · exact (hmb p h').1
                · rcases List.mem_singleton.mp h' with h''
                  subst h''
                  norm_num
            have hchain_tail : List.Chain' (· ≤ ·) ((50 : ℚ) ::
                ((parsedTimes (env segments.length).lines).map
                  (fun t => min (50 + t / (totalDurationFades segments
                    (options.getD ExportOptions.defaultValue).fade_duration) * 50) 99) ++
                [(100 : ℚ)])) := by
              refine chain'_cons_of_bounds (fun p hp => ?_) ?_
              · rcases List.mem_append.mp hp with h | h
                · exact (hmb p h).1
                · rcases List.mem_singleton.mp h with h'
                  subst h'
                  norm_num
              · refine chain'_append_of_bounds (c := 99) (fun p hp => (hmb p hp).2)
                  (fun p hp => ?_) hmc (List.chain'_singleton _)
                rcases List.mem_singleton.mp hp with h'
                subst h'
                norm_num
            have hmid : List.Chain' (· ≤ ·) (percentsOf (segLoop env (totalDurationFades
                segments (options.getD ExportOptions.defaultValue).fade_duration)
                segments.length 50 "FFmpeg segment encoding failed for segment "
                0 0 segments).events ++ ((50 : ℚ) ::
                ((parsedTimes (env segments.length).lines).map
                  (fun t => min (50 + t / (totalDurationFades segments
                    (options.getD ExportOptions.defaultValue).fade_duration) * 50) 99) ++
                [(100 : ℚ)]))) :=
              chain'_append_of_bounds (c := 50) h50 htail lchain hchain_tail
            refine chain'_cons_of_bounds (fun p hp => ?_)
              (chain'_cons_of_bounds (fun p hp => ?_) hmid)
            · rcases List.mem_cons.mp hp with h | h
              · subst h; norm_num
              · rcases List.mem_append.mp h with h' | h'
                · exact hge0 p h'
                · exact le_trans (by norm_num) (htail p h')
            · rcases List.mem_append.mp hp with h' | h'
              · exact hge0 p h'
              · exact le_trans (by norm_num) (htail p h')
          · intro e' he
            have hshape : prepEvent segments.length (totalDurationFades segments
                  (options.getD ExportOptions.defaultValue).fade_duration) ::
                mkEvent "rendering" 0 segments.length (some 0) (some (totalDurationFades
                  segments (options.getD ExportOptions.defaultValue).fade_duration)) none
                  (some 0) ::
                ((segLoop env (totalDurationFades segments
                  (options.getD ExportOptions.defaultValue).fade_duration) segments.length
                  50 "FFmpeg segment encoding failed for segment " 0 0 segments).events ++
                (finalizingEvent segments.length (totalDurationFades segments
                  (options.getD ExportOptions.defaultValue).fade_duration) 50 ::
                (finalMonitorEvents (totalDurationFades segments
                  (options.getD ExportOptions.defaultValue).fade_duration) segments.length
                  (env segments.length).lines ++
                [completeEvent segments.length (totalDurationFades segments
                  (options.getD ExportOptions.defaultValue).fade_duration)]))) =
                (prepEvent segments.length (totalDurationFades segments
                  (options.getD ExportOptions.defaultValue).fade_duration) ::
                mkEvent "rendering" 0 segments.length (some 0) (some (totalDurationFades
                  segments (options.getD ExportOptions.defaultValue).fade_duration)) none
                  (some 0) ::
                ((segLoop env (totalDurationFades segments
                  (options.getD ExportOptions.defaultValue).fade_duration) segments.length
                  50 "FFmpeg segment encoding failed for segment " 0 0 segments).events ++
                (finalizingEvent segments.length (totalDurationFades segments
                  (options.getD ExportOptions.defaultValue).fade_duration) 50 ::
                finalMonitorEvents (totalDurationFades segments
                  (options.getD ExportOptions.defaultValue).fade_duration) segments.length
                  (env segments.length).lines))) ++
                [completeEvent segments.length (totalDurationFades segments
                  (options.getD ExportOptions.defaultValue).fade_duration)] := by
              simp
            rw [hshape, List.dropLast_concat] at he
            rcases List.mem_cons.mp he with h | h
            · subst h
              simp [prepEvent, mkEvent]
            · rcases List.mem_cons.mp h with h' | h'
              · subst h'
                simp [mkEvent]
              · rcases List.mem_append.mp h' with h'' | h''
                · rw [hphases e' h'']
                  simp
                · rcases List.mem_cons.mp h'' with h3 | h3
                  · subst h3
                    simp [finalizingEvent, mkEvent]
                  · rw [(finalMonitorEvents_mem e' h3).1]
                    simp
        · rw [if_neg hs]
          dsimp only
          constructor
          · rw [percentsOf_cons_some (show (prepEvent segments.length (totalDurationFades
                segments (options.getD ExportOptions.defaultValue).fade_duration)).percent =
                some 0 from rfl),
              percentsOf_cons_some (show (mkEvent "rendering" 0 segments.length (some 0)
                (some (totalDurationFades segments
                  (options.getD ExportOptions.defaultValue).fade_duration)) none
                (some 0)).percent = some 0 from rfl),
              percentsOf_append,
              percentsOf_cons_some (show (finalizingEvent segments.length
                (totalDurationFades segments
                  (options.getD ExportOptions.defaultValue).fade_duration) 50).percent =
                some 50 from rfl),
              percentsOf_append, percentsOf_finalMonitorEvents]
            have herr : percentsOf [errorEvent segments.length segments.length
                (totalDurationFades segments
                  (options.getD ExportOptions.defaultValue).fade_duration)] = [] := rfl
            rw [herr, List.append_nil]
            have htail : ∀ p ∈ (50 : ℚ) :: (parsedTimes (env segments.length).lines).map
                (fun t => min (50 + t / (totalDurationFades segments
                  (options.getD ExportOptions.defaultValue).fade_duration) * 50) 99),
                50 ≤ p := by
              intro p hp
              rcases List.mem_cons.mp hp with h | h
              · subst h; norm_num
              · exact (hmb p h).1
            have hchain_tail : List.Chain' (· ≤ ·) ((50 : ℚ) ::
                (parsedTimes (env segments.length).lines).map
                  (fun t => min (50 + t / (totalDurationFades segments
                    (options.getD ExportOptions.defaultValue).fade_duration) * 50) 99)) :=
              chain'_cons_of_bounds (fun p hp => (hmb p hp).1) hmc
            have hmid : List.Chain' (· ≤ ·) (percentsOf (segLoop env (totalDurationFades
                segments (options.getD ExportOptions.defaultValue).fade_duration)
                segments.length 50 "FFmpeg segment encoding failed for segment "
                0 0 segments).events ++ ((50 : ℚ) ::
                (parsedTimes (env segments.length).lines).map
                  (fun t => min (50 + t / (totalDurationFades segments
                    (options.getD ExportOptions.defaultValue).fade_duration) * 50) 99))) :=
              chain'_append_of_bounds (c := 50) h50 htail lchain hchain_tail
            refine chain'_cons_of_bounds (fun p hp => ?_)
              (chain'_cons_of_bounds (fun p hp => ?_) hmid)
            · rcases List.mem_cons.mp hp with h | h
              · subst h; norm_num
              · rcases List.mem_append.mp h with h' | h'
                · exact hge0 p h'
                · exact le_trans (by norm_num) (htail p h')
            · rcases List.mem_append.mp hp with h' | h'
              · exact hge0 p h'
              · exact le_trans (by norm_num) (htail p h')
          · intro e' he
            have hshape : prepEvent segments.length (totalDurationFades segments
                  (options.getD ExportOptions.defaultValue).fade_duration) ::
                mkEvent "rendering" 0 segments.length (some 0) (some (totalDurationFades
                  segments (options.getD ExportOptions.defaultValue).fade_duration)) none
                  (some 0) ::
                ((segLoop env (totalDurationFades segments
                  (options.getD ExportOptions.defaultValue).fade_duration) segments.length
                  50 "FFmpeg segment encoding failed for segment " 0 0 segments).events ++
                (finalizingEvent segments.length (totalDurationFades segments
                  (options.getD ExportOptions.defaultValue).fade_duration) 50 ::
                (finalMonitorEvents (totalDurationFades segments
                  (options.getD ExportOptions.defaultValue).fade_duration) segments.length
                  (env segments.length).lines ++
                [errorEvent segments.length segments.length (totalDurationFades segments
                  (options.getD ExportOptions.defaultValue).fade_duration)]))) =
                (prepEvent segments.length (totalDurationFades segments
                  (options.getD ExportOptions.defaultValue).fade_duration) ::
                mkEvent "rendering" 0 segments.length (some 0) (some (totalDurationFades
                  segments (options.getD ExportOptions.defaultValue).fade_duration)) none
                  (some 0) ::
                ((segLoop env (totalDurationFades segments
                  (options.getD ExportOptions.defaultValue).fade_duration) segments.length
                  50 "FFmpeg segment encoding failed for segment " 0 0 segments).events ++
                (finalizingEvent segments.length (totalDurationFades segments
                  (options.getD ExportOptions.defaultValue).fade_duration) 50 ::
                finalMonitorEvents (totalDurationFades segments
                  (options.getD ExportOptions.defaultValue).fade_duration) segments.length
                  (env segments.length).lines))) ++
                [errorEvent segments.length segments.length (totalDurationFades segments
                  (options.getD ExportOptions.defaultValue).fade_duration)] := by
              simp
            rw [hshape, List.dropLast_concat] at he
            rcases List.mem_cons.mp he with h | h
            · subst h
              simp [prepEvent, mkEvent]
            · rcases List.mem_cons.mp h with h' | h'
              · subst h'
                simp [mkEvent]
              · rcases List.mem_append.mp h' with h'' | h''
                · rw [hphases e' h'']
                  simp
                · rcases List.mem_cons.mp h'' with h3 | h3
                  · subst h3
                    simp [finalizingEvent, mkEvent]
                  · rw [(finalMonitorEvents_mem e' h3).1]
                    simp
  · rw [if_neg hf]
    have hf' : use_fades (options.getD ExportOptions.defaultValue) = false := by
      simpa using hf
    have htot : 0 < totalDurationFast segments := by
      rw [totalDurationFast]
      refine List.sum_pos _ ?_ hmne
      intro x hx
      obtain ⟨y, hy, hxy⟩ := List.mem_map.mp hx
      rw [← hxy]
      exact hdur y hy
    obtain ⟨lchain, lbound⟩ := segLoop_percents env (totalDurationFast segments)
      segments.length 100 "FFmpeg segment extraction failed for segment " htot
      (by norm_num) segments 0 0 hdur le_rfl
    have hdrop : (segments.map segDuration).dropLast.sum =
        (segments.map segDuration).sum - lastDuration segments := sum_dropLast hmne
    have hge0 : ∀ p ∈ percentsOf (segLoop env (totalDurationFast segments) segments.length
        100 "FFmpeg segment extraction failed for segment " 0 0 segments).events,
        0 ≤ p := by
      intro p hp
      have := (lbound p hp).1
      simpa using this
    have h95 : ∀ p ∈ percentsOf (segLoop env (totalDurationFast segments) segments.length
        100 "FFmpeg segment extraction failed for segment " 0 0 segments).events,
        p ≤ 95 := by
      intro p hp
      have hhi := (lbound p hp).2
      have hcond := hfast hf'
      have harith : (0 + (segments.map segDuration).dropLast.sum) /
          totalDurationFast segments * 100 ≤ 95 := by
        rw [zero_add, hdrop, div_mul_eq_mul_div, div_le_iff htot]
        rw [totalDurationFast] at htot hcond ⊢
        nlinarith [htot, hcond]
      linarith
    rcases hres : (segLoop env (totalDurationFast segments) segments.length 100
        "FFmpeg segment extraction failed for segment " 0 0 segments).res with e | q
    · rw [exportFast_eq_error hres]
      dsimp only
      constructor
      · rw [percentsOf_cons_some (show (prepEvent segments.length
            (totalDurationFast segments)).percent = some 0 from rfl)]
        exact chain'_cons_of_bounds hge0 lchain
      · intro e' he
        obtain ⟨evs₀, cur, hev, hph⟩ := segLoop_error_split env _ _ _ _ segments 0 0 e hres
        rw [hev] at he
        have hshape : prepEvent segments.length (totalDurationFast segments) ::
            (evs₀ ++ [errorEvent cur segments.length (totalDurationFast segments)]) =
            (prepEvent segments.length (totalDurationFast segments) :: evs₀) ++
            [errorEvent cur segments.length (totalDurationFast segments)] := rfl
        rw [hshape, List.dropLast_concat] at he
        rcases List.mem_cons.mp he with h | h
        · subst h
          simp [prepEvent, mkEvent]
        · rw [hph e' h]
          simp
    · have hphases := segLoop_ok_phases env _ _ _ _ segments 0 0 q hres
      rw [exportFast_eq_ok hres]
      by_cases hs : (env segments.length).success = true
      · rw [if_pos hs]
        dsimp only
        constructor
        · simp only [List.cons_append]
          rw [percentsOf_cons_some (show (prepEvent segments.length
              (totalDurationFast segments)).percent = some 0 from rfl),
            percentsOf_append]
          have hfc : percentsOf [finalizingEvent segments.length
              (totalDurationFast segments) 95,
              completeEvent segments.length (totalDurationFast segments)] =
              [95, 100] := rfl
          rw [hfc]
          refine chain'_cons_of_bounds (fun p hp => ?_) ?_
          · rcases List.mem_append.mp hp with h | h
            · exact hge0 p h
            · rcases List.mem_cons.mp h with h' | h'
              · subst h'; norm_num
              · rcases List.mem_singleton.mp h' with h''
                subst h''; norm_num
          · refine chain'_append_of_bounds (c := 95) h95 (fun p hp => ?_) lchain ?_
            · rcases List.mem_cons.mp hp with h' | h'
              · subst h'; norm_num
              · rcases List.mem_singleton.mp h' with h''
                subst h''; norm_num
            · refine List.chain'_cons.mpr ⟨by norm_num, List.chain'_singleton _⟩
        · intro e' he
          have hshape : prepEvent segments.length (totalDurationFast segments) ::
              (segLoop env (totalDurationFast segments) segments.length 100
                "FFmpeg segment extraction failed for segment " 0 0 segments).events ++
              [finalizingEvent segments.length (totalDurationFast segments) 95,
                completeEvent segments.length (totalDurationFast segments)] =
              (prepEvent segments.length (totalDurationFast segments) ::
              ((segLoop env (totalDurationFast segments) segments.length 100
                "FFmpeg segment extraction failed for segment " 0 0 segments).events ++
              [finalizingEvent segments.length (totalDurationFast segments) 95])) ++
              [completeEvent segments.length (totalDurationFast segments)] := by
            simp
          rw [hshape, List.dropLast_concat] at he
          rcases List.mem_cons.mp he with h | h
          · subst h
            simp [prepEvent, mkEvent]
          · rcases List.mem_append.mp h with h' | h'
            · rw [hphases e' h']
              simp
            · rcases List.mem_singleton.mp h' with h''
              subst h''
              simp [finalizingEvent, mkEvent]
      · rw [if_neg hs]
        dsimp only
        constructor
        · simp only [List.cons_append]
          rw [percentsOf_cons_some (show (prepEvent segments.length
              (totalDurationFast segments)).percent = some 0 from rfl),
            percentsOf_append]
          have hfc : percentsOf [finalizingEvent segments.length
              (totalDurationFast segments) 95,
              errorEvent segments.length segments.length (totalDurationFast segments)] =
              [95] := rfl
          rw [hfc]
          refine chain'_cons_of_bounds (fun p hp => ?_) ?_
          · rcases List.mem_append.mp hp with h | h
            · exact hge0 p h
            · rcases List.mem_singleton.mp h with h'
              subst h'; norm_num
          · exact chain'_append_of_bounds (c := 95) h95 (fun p hp => by
                rcases List.mem_singleton.mp hp with h'
                subst h'; norm_num)
              lchain (List.chain'_singleton _)
        · intro e' he
          have hshape : prepEvent segments.length (totalDurationFast segments) ::
              (segLoop env (totalDurationFast segments) segments.length 100
                "FFmpeg segment extraction failed for segment " 0 0 segments).events ++
              [finalizingEvent segments.length (totalDurationFast segments) 95,
                errorEvent segments.length segments.length
                  (totalDurationFast segments)] =
              (prepEvent segments.length (totalDurationFast segments) ::
              ((segLoop env (totalDurationFast segments) segments.length 100
                "FFmpeg segment extraction failed for segment " 0 0 segments).events ++
              [finalizingEvent segments.length (totalDurationFast segments) 95])) ++
              [errorEvent segments.length segments.length (totalDurationFast segments)] := by
            simp
          rw [hshape, List.dropLast_concat] at he
          rcases List.mem_cons.mp he with h | h
          · subst h
            simp [prepEvent, mkEvent]
          · rcases List.mem_append.mp h with h' | h'
            · rw [hphases e' h']
              simp
            · rcases List.mem_singleton.mp h' with h''
              subst h''
              simp [finalizingEvent, mkEvent]

/-- Witness for `percent_monotone_and_error_terminal`: a fast-mode job with two
equal-duration segments, all invocations succeeding. -/
theorem percent_monotone_and_error_terminal_witness :
    (∀ s ∈ ([⟨"a", 0, 10, none, none, none⟩, ⟨"b", 0, 10, none, none, none⟩] :
        List ExportSegment), 0 < segDuration s)
    ∧ (List.Chain' (· ≤ ·) (percentsOf (export_video
          [⟨"a", 0, 10, none, none, none⟩, ⟨"b", 0, 10, none, none, none⟩] "out.mp4" none
          (fun _ => ⟨true, "", []⟩)).events)
      ∧ ∀ e ∈ (export_video [⟨"a", 0, 10, none, none, none⟩,
          ⟨"b", 0, 10, none, none, none⟩] "out.mp4" none
          (fun _ => ⟨true, "", []⟩)).events.dropLast, ¬(e.phase = "error")) :=
  ⟨by
      intro s hs
      rcases List.mem_cons.mp hs with h | h
      · subst h
        norm_num [segDuration]
      · rcases List.mem_singleton.mp h with h'
        subst h'
        norm_num [segDuration],
    percent_monotone_and_error_terminal
      [⟨"a", 0, 10, none, none, none⟩, ⟨"b", 0, 10, none, none, none⟩] "out.mp4" none
      (fun _ => ⟨true, "", []⟩)
      (by
        intro s hs
        rcases List.mem_cons.mp hs with h | h
        · subst h
          norm_num [segDuration]
        · rcases List.mem_singleton.mp h with h'
          subst h'
          norm_num [segDuration])
      (fun i => ⟨fun t ht => absurd ht (List.not_mem_nil t), List.chain'_nil⟩)
      (by
        intro _
        norm_num [totalDurationFast, lastDuration, segDuration])
      (by
        intro hcontra
        exact absurd hcontra (by decide))⟩

end LexiCut
